import Mathlib

/-!
Shallow embedding of `src/frigate/object_processing.py` (the
`zone_filtered` helper and the `TrackedObjectProcessor` class, in
particular the body of its `run` loop and the `get_best` accessor).

Modelling conventions:
* Python floats (scores, areas, timestamps) are modelled as `ℚ`; only
  order comparisons and one subtraction are performed on them.
* Python dicts are association lists (`List (String × α)`); insertion
  order is preserved, overwriting a key keeps its position, and the
  `defaultdict` behaviour of inserting a default value on read access is
  modelled explicitly where the inserted keys are observable later.
* Frame buffers are opaque identifiers (`FrameBuf := Nat`).  The external
  collaborators (cv2 point-in-polygon test, the in-place annotation
  drawing, cv2.cvtColor, cv2.imencode) are fields of an `Env` record;
  `imencode` returns `none` when the `ret` flag is false.  The drawing
  calls (`draw_box_with_label`, `cv2.rectangle`, `cv2.putText`,
  `cv2.drawContours`) and the `show_timestamp` / `draw_zones` camera
  flags only change pixel contents, which the rest of the logic never
  inspects, so they are folded into the single `Env.composite` function.
* MQTT topics `f"{a}/{b}/{c}"` are modelled structurally as the segment
  list `[a, b, c]` (names are assumed not to contain `/`).
* Plasma-store keys `f"{camera}{frame_time}"` are modelled as the pair
  `(camera, frame_time)`.
* The zone coordinate parsing in `__init__` is elided: the configuration
  is given with the contour already parsed next to the raw per-camera
  zone dict, mirroring `zone_data[name]['contours'][camera]` alongside
  `zone_config[name][camera]`.
* An uncaught `KeyError` (the `best_objects[obj_name]` lookups in the
  MQTT reporting section) kills the thread; the step returns a `crashed`
  flag and sequence processing stops there.
-/

/-- Frame buffers are opaque identifiers. -/
abbrev FrameBuf := Nat

/-- A fragment of the Python value universe, enough to model the
configuration dicts that `zone_filtered` consumes with duck typing. -/
inductive CVal where
  | num (q : ℚ)
  | str (s : String)
  | dict (entries : List (String × CVal))

/-- Association-list lookup with decidable string keys (Python dict read). -/
def alookup {α : Type} : List (String × α) → String → Option α
  | [], _ => none
  | (k, v) :: rest, key => if k = key then some v else alookup rest key

/-- Dict read with a default (`d.get(k, default)` / `defaultdict` read). -/
def lookupD {α : Type} (m : List (String × α)) (k : String) (d : α) : α :=
  (alookup m k).getD d

/-- Dict write: overwrite in place keeping position, append if absent. -/
def setk {α : Type} : List (String × α) → String → α → List (String × α)
  | [], k, v => [(k, v)]
  | (k', v') :: rest, k, v =>
      if k' = k then (k, v) :: rest else (k', v') :: setk rest k v

/-- The `defaultdict` read side effect: a read of a missing key inserts the
default value (insertion order: appended at the end). -/
def ensureK {α : Type} (m : List (String × α)) (k : String) (d : α) :
    List (String × α) :=
  if (alookup m k).isSome then m else m ++ [(k, d)]

/-- First-occurrence deduplication (deterministic refinement of Python's
`set(...)` iteration in `run`; no claim depends on the iteration order). -/
def dedupAux : List String → List String → List String
  | _, [] => []
  | seen, x :: xs =>
      if x ∈ seen then dedupAux seen xs else x :: dedupAux (x :: seen) xs

/-- Deduplicate keeping first occurrences. -/
def dedup (l : List String) : List String := dedupAux [] l

/-- Python `d.get(k, default)` on a `CVal` (returns the default when the
value is not a dict or the key is missing). -/
def CVal.get : CVal → String → CVal → CVal
  | .dict es, k, d => (alookup es k).getD d
  | _, _, d => d

/-- Python `k in d` on a `CVal`. -/
def CVal.hasKey : CVal → String → Bool
  | .dict es, k => (alookup es k).isSome
  | _, _ => false

/-- Numeric coercion for configuration values (the settings consulted by
`zone_filtered` are numbers under the configuration schema; a non-numeric
value yields 0 here, a path never taken by schema-conforming configs). -/
def CVal.toNum : CVal → ℚ
  | .num q => q
  | _ => 0

/-- Python `d.get(k, default)` where the result is used as a number. -/
def CVal.getNum (c : CVal) (k : String) (d : ℚ) : ℚ :=
  (c.get k (.num d)).toNum

/-- One tracked object of a snapshot, as the dict produced by the tracker.
Only the fields the control flow inspects are carried; `region` and the
exact contents of `history` feed only the (abstracted) drawing, so the
history is kept just as a list whose length is tested. -/
structure TrackedObject where
  label : String
  score : ℚ
  area : ℚ
  centroid : Int × Int
  box : Int × Int × Int × Int
  frame_time : ℚ
  history : List ℚ
deriving DecidableEq

/-- Direct embedding of `zone_filtered(obj, object_config)`
(object_processing.py lines 25-46).  Note the body looks up the key
`'filters'` inside whatever it is handed. -/
def zone_filtered (obj : TrackedObject) (object_config : CVal) : Bool :=
  let object_name := obj.label
  let object_filters := object_config.get "filters" (.dict [])
  if object_filters.hasKey object_name then
    let obj_settings := object_filters.get object_name (.dict [])
    if obj_settings.getNum "min_area" (-1) > obj.area then true
    else if obj_settings.getNum "max_area" 24000000 < obj.area then true
    else if obj_settings.getNum "threshold" 0 > obj.score then true
    else false
  else false

/-- External collaborators of the core, specified only at their boundary. -/
structure Env where
  /-- Models `cv2.pointPolygonTest(contour, point, False) >= 0`. -/
  inPoly : List (Int × Int) → Int × Int → Bool
  /-- All in-place annotation drawing applied to a fetched frame. -/
  composite : FrameBuf → FrameBuf
  /-- Models `cv2.cvtColor(frame, cv2.COLOR_RGB2BGR)`. -/
  cvtColor : FrameBuf → FrameBuf
  /-- Models `cv2.imencode('.jpg', frame)`: `some bytes` when `ret` is true. -/
  imencode : FrameBuf → Option Nat

/-- Per-(zone, camera) configuration: the parsed contour
(`zone_data[name]['contours'][camera]`) together with the raw dict
`zone_config[name][camera]`. -/
structure ZoneCamCfg where
  contour : List (Int × Int)
  raw : CVal

/-- Static configuration of the processor: the MQTT topic prefix string and
`zone_config` (zone name → camera → per-camera zone configuration). -/
structure SysConfig where
  topicBase : String
  zones : List (String × List (String × ZoneCamCfg))

/-- A best-sighting record: the stored tracked object (the code stores the
object dict itself after assigning `obj['frame']`) plus the private frame
copy. -/
structure BestRecord where
  obj : TrackedObject
  frame : FrameBuf
deriving DecidableEq

/-- Per-camera mutable data (`self.camera_data[camera]`). -/
structure CameraData where
  best_objects : List (String × BestRecord)
  object_status : List (String × String)
  tracked_objects : List TrackedObject
  current_frame : FrameBuf
  current_frame_time : ℚ
  object_id : Option (String × ℚ)
deriving DecidableEq

/-- The defaultdict default for `camera_data` entries (zeros frame,
time 0.0, no best objects, no statuses, no plasma handle). -/
def CameraData.init : CameraData :=
  { best_objects := []
    object_status := []
    tracked_objects := []
    current_frame := 0
    current_frame_time := 0
    object_id := none }

/-- Per-zone, per-camera, per-label ON/OFF table
(`self.zone_data[zone]['object_status']`). -/
abbrev CamStatus := List (String × List (String × String))

/-- The whole mutable state of the processor thread. -/
structure SysState where
  camera_data : List (String × CameraData)
  zone_status : List (String × CamStatus)
deriving DecidableEq

/-- State at thread start: both defaultdicts empty. -/
def initState : SysState := { camera_data := [], zone_status := [] }

/-- An MQTT payload: a plain string or JPEG bytes (identified by the
number `imencode` produced). -/
inductive Payload where
  | str (s : String)
  | jpg (n : Nat)
deriving DecidableEq

/-- One `self.client.publish(topic, payload, retain=...)` call. -/
structure Msg where
  topic : List String
  payload : Payload
  retain : Bool
deriving DecidableEq

/-- The messages of a list published on one exact topic. -/
def msgsOn (msgs : List Msg) (t : List String) : List Msg :=
  msgs.filter (fun m => m.topic = t)

/-- Membership map built per snapshot (`current_objects_in_zones`):
zone name → list of labels appended, default `[]`. -/
abbrev MemberMap := List (String × List String)

/-- Append a label to a zone's member list (defaultdict-of-list append). -/
def memAppend (m : MemberMap) (z l : String) : MemberMap :=
  setk m z (lookupD m z [] ++ [l])

/-- Read a zone's member list. -/
def memGet (m : MemberMap) (z : String) : List String := lookupD m z []

/-- Lines 108-116 of `run`: build `current_objects_in_zones` for the
snapshot.  Faithful to the source, the inner loop
`for camera, contour in zone['contours'].items():` iterates over every
camera's contour of every zone and rebinds the enclosing `camera`
variable; the second component returned is the final value of `camera`
after the loops (the snapshot's camera when no iteration happened). -/
def zoneScan (env : Env) (cfg : SysConfig) (camera0 : String)
    (objs : List TrackedObject) : MemberMap × String :=
  objs.foldl
    (fun acc obj =>
      let bc : Int × Int := (obj.centroid.1, obj.box.2.2.2)
      cfg.zones.foldl
        (fun acc2 zc =>
          zc.2.foldl
            (fun acc3 cc =>
              ( if env.inPoly cc.2.contour bc
                   && !(zone_filtered obj (cc.2.raw.get "filters" (.dict [])))
                then memAppend acc3.1 zc.1 obj.label
                else acc3.1,
                cc.1 ))
            acc2)
        acc)
    (([] : MemberMap), camera0)

/-- The value of the loop variable `camera` after the membership loops of a
step (equal to the snapshot's camera only when no zone contour was
iterated or the last iterated contour belongs to it). -/
def stepCam (env : Env) (cfg : SysConfig) (camera0 : String)
    (objs : List TrackedObject) : String :=
  (zoneScan env cfg camera0 objs).2

/-- Lines 163-176 of `run`, one iteration of the best-objects loop: skip
objects not seen on the current frame; otherwise create the record
unconditionally when absent, and replace it when the new score is strictly
higher or the stored record is more than 60 seconds old. -/
def updateBestOne (now ft : ℚ) (curFrame : FrameBuf)
    (best : List (String × BestRecord)) (obj : TrackedObject) :
    List (String × BestRecord) :=
  if obj.frame_time ≠ ft then best
  else
    match alookup best obj.label with
    | some rec =>
        if obj.score > rec.obj.score ∨ now - rec.obj.frame_time > 60 then
          setk best obj.label ⟨obj, curFrame⟩
        else best
    | none => setk best obj.label ⟨obj, curFrame⟩

/-- Ensure a label key (default `"OFF"`) in one camera's inner status dict:
the defaultdict read side effect of `camera[label]` in the list
comprehensions of lines 190 and 192. -/
def ensureL (inner : List (String × String)) (label : String) :
    List (String × String) :=
  ensureK inner label "OFF"

/-- Aggregate OR of a label over a per-camera status table: some camera's
entry (missing entries read as `"OFF"`) equals `"ON"`.  This is the value
of `any([camera[label] == 'ON' for camera in ...])`. -/
def camOr (cams : CamStatus) (label : String) : Bool :=
  cams.any (fun c => lookupD c.2 label "OFF" = "ON")

/-- The aggregate OR of `(zone, label)` over the stored zone status. -/
def aggOr (zst : List (String × CamStatus)) (zone label : String) : Bool :=
  camOr (lookupD zst zone []) label

/-- Lines 190 and 192 of `run`: evaluate the list comprehension
`[camera[label] == 'ON' for camera in zone_status.values()]` — each inner
defaultdict read inserts the missing key with `"OFF"` — and take `any`. -/
def pollLabel (cams : CamStatus) (label : String) : CamStatus × Bool :=
  let cams' := cams.map (fun c => (c.1, ensureL c.2 label))
  (cams', camOr cams' label)

/-- The zero, one or two messages lines 193-197 publish for one label of
one zone, as a function of the previous and new aggregate state. -/
def edgeMsgs (base zone label : String) (prev new : Bool) : List Msg :=
  if prev = false ∧ new = true then
    [⟨[base, zone, label], .str "ON", false⟩]
  else if prev = true ∧ new = false then
    [⟨[base, zone, label], .str "OFF", false⟩]
  else []

/-- Lines 189-197 of `run`, the body of `for label in labels_for_zone`:
compute `previous_state`, set this camera's entry from the membership
list, compute `new_state`, publish on a strict change. -/
def processZoneLabel (base zone camStep : String) (inZone : Bool)
    (cams : CamStatus) (label : String) : CamStatus × List Msg :=
  let p1 := pollLabel cams label
  let cams2 := setk p1.1 camStep
    (setk (lookupD p1.1 camStep []) label (if inZone then "ON" else "OFF"))
  let p2 := pollLabel cams2 label
  (p2.1, edgeMsgs base zone label p1.2 p2.2)

/-- The loop `for label in labels_for_zone` over one zone's label set. -/
def zoneLabelLoop (base zone camStep : String) (mem : MemberMap)
    (cams : CamStatus) : List String → CamStatus × List Msg
  | [] => (cams, [])
  | l :: rest =>
      let r := processZoneLabel base zone camStep
        (l ∈ memGet mem zone) cams l
      let r2 := zoneLabelLoop base zone camStep mem r.1 rest
      (r2.1, r.2 ++ r2.2)

/-- Lines 184-197 of `run`, the body of `for zone in relevant_zones`: the
read `zone_data[zone]['object_status'][camera].keys()` first materialises
the (possibly fresh) inner dict for the current `camera` variable, then
the per-label loop runs over the union of current members and previously
reported labels. -/
def processZone (base camStep : String) (mem : MemberMap)
    (zst : List (String × CamStatus)) (zone : String) :
    List (String × CamStatus) × List Msg :=
  let cams0 := lookupD zst zone []
  let cams1 := ensureK cams0 camStep []
  let keys := (lookupD cams1 camStep []).map Prod.fst
  let labels := dedup (memGet mem zone ++ keys)
  let r := zoneLabelLoop base zone camStep mem cams1 labels
  (setk zst zone r.1, r.2)

/-- The loop over `relevant_zones`. -/
def zoneLoop (base camStep : String) (mem : MemberMap)
    (zst : List (String × CamStatus)) :
    List String → List (String × CamStatus) × List Msg
  | [] => (zst, [])
  | z :: rest =>
      let r := processZone base camStep mem zst z
      let r2 := zoneLoop base camStep mem r.1 rest
      (r2.1, r.2 ++ r2.2)

/-- Lines 181-197 of `run`: select the zones whose configuration names the
current `camera` variable and run the occupancy update over them. -/
def zoneSection (base camStep : String) (cfg : SysConfig) (mem : MemberMap)
    (zst : List (String × CamStatus)) :
    List (String × CamStatus) × List Msg :=
  let relevant :=
    (cfg.zones.filter (fun zc => (alookup zc.2 camStep).isSome)).map Prod.fst
  zoneLoop base camStep mem zst relevant

/-- The state message and, when `imencode` succeeds, the retained snapshot
message published for one presence transition of `name` (lines 210-216 and
222-228). -/
def presLoop1 (env : Env) (base camStep : String) (counted : List String)
    (best : List (String × BestRecord)) (st : List (String × String)) :
    List String → List (String × String) × List Msg × Bool
  | [] => (st, [], false)
  | name :: rest =>
      let cnt := counted.count name
      let newStatus := if cnt > 0 then "ON" else "OFF"
      let cur := lookupD st name "OFF"
      let st1 := ensureK st name "OFF"
      if newStatus ≠ cur then
        let st2 := setk st1 name newStatus
        let stateMsg : Msg := ⟨[base, camStep, name], .str newStatus, false⟩
        match alookup best name with
        | none => (st2, [stateMsg], true)
        | some rec =>
            let snap : List Msg :=
              match env.imencode (env.cvtColor rec.frame) with
              | some j => [⟨[base, camStep, name, "snapshot"], .jpg j, true⟩]
              | none => []
            let r := presLoop1 env base camStep counted best st2 rest
            (r.1, stateMsg :: snap ++ r.2.1, r.2.2)
      else
        presLoop1 env base camStep counted best st1 rest

/-- Lines 218-228 of `run`: the loop over `expired_objects`.  Each expired
label is set to `"OFF"`, the OFF state message is published, and the best
snapshot is re-published when encoding succeeds; a missing best record
raises (crash flag). -/
def presLoop2 (env : Env) (base camStep : String)
    (best : List (String × BestRecord)) (st : List (String × String)) :
    List String → List (String × String) × List Msg × Bool
  | [] => (st, [], false)
  | name :: rest =>
      let st1 := setk st name "OFF"
      let offMsg : Msg := ⟨[base, camStep, name], .str "OFF", false⟩
      match alookup best name with
      | none => (st1, [offMsg], true)
      | some rec =>
          let snap : List Msg :=
            match env.imencode (env.cvtColor rec.frame) with
            | some j => [⟨[base, camStep, name, "snapshot"], .jpg j, true⟩]
            | none => []
          let r := presLoop2 env base camStep best st1 rest
          (r.1, offMsg :: snap ++ r.2.1, r.2.2)

/-- Lines 199-228 of `run`: the whole-frame presence reporting.  `counted`
lists the label of every tracked object whose history is longer than one
entry; the first loop walks the Counter's keys, and when it did not raise
the expired loop turns stale ON labels OFF. -/
def presenceSection (env : Env) (base camStep : String)
    (objs : List TrackedObject) (status : List (String × String))
    (best : List (String × BestRecord)) :
    List (String × String) × List Msg × Bool :=
  let counted := (objs.filter (fun o => o.history.length > 1)).map
    (fun o => o.label)
  let labels := dedup counted
  let r1 := presLoop1 env base camStep counted best status labels
  if r1.2.2 then r1
  else
    let expired := (r1.1.filter
      (fun p => p.2 = "ON" ∧ p.1 ∉ labels)).map Prod.fst
    let r2 := presLoop2 env base camStep best r1.1 expired
    (r2.1, r1.2.1 ++ r2.2.1, r2.2.2)

/-- One queue item popped by `run`, together with the oracles for the two
external reads the iteration performs: the plasma-store answer for the key
`f"{camera}{frame_time}"` (where `camera` is the clobbered loop variable)
and the wall-clock value `datetime.datetime.now().timestamp()`. -/
structure StepInput where
  camera : String
  frame_time : ℚ
  tracked_objects : List TrackedObject
  frame : Option FrameBuf
  now : ℚ

/-- The observable outcome of one iteration of the `run` loop. -/
structure StepOutput where
  state : SysState
  msgs : List Msg
  deletes : List (String × ℚ)
  crashed : Bool

/-- One full iteration of the `while True` loop of
`TrackedObjectProcessor.run` (lines 99-228), in source order: store the
snapshot metadata, build the zone membership map (clobbering `camera`),
fetch/composite/commit the frame and swap the plasma handle when the frame
is available, update the best objects of the snapshot's camera (the
`best_objects` binding of line 102) using the current frame of the
clobbered camera's slot, run the zone occupancy reporting, then the
whole-frame presence reporting. -/
def runStep (env : Env) (cfg : SysConfig) (s : SysState) (inp : StepInput) :
    StepOutput :=
  let camera := inp.camera
  let cd0 := lookupD s.camera_data camera CameraData.init
  let cd0' := { cd0 with
    tracked_objects := inp.tracked_objects
    current_frame_time := inp.frame_time }
  let camData1 := setk s.camera_data camera cd0'
  let scan := zoneScan env cfg camera inp.tracked_objects
  let mem := scan.1
  let cam' := scan.2
  let camData2 :=
    match inp.frame with
    | none => camData1
    | some f =>
        let cdc := lookupD camData1 cam' CameraData.init
        setk camData1 cam'
          { cdc with
            current_frame := env.composite f
            object_id := some (cam', inp.frame_time) }
  let deletes :=
    match inp.frame with
    | none => []
    | some _ =>
        match (lookupD camData1 cam' CameraData.init).object_id with
        | some h => [h]
        | none => []
  let curFrame := (lookupD camData2 cam' CameraData.init).current_frame
  let bestOld := (lookupD camData2 camera CameraData.init).best_objects
  let bestNew := inp.tracked_objects.foldl
    (fun b o => updateBestOne inp.now inp.frame_time curFrame b o) bestOld
  let camData3 := setk camData2 camera
    { lookupD camData2 camera CameraData.init with best_objects := bestNew }
  let zr := zoneSection cfg.topicBase cam' cfg mem s.zone_status
  let statusOld := (lookupD camData3 camera CameraData.init).object_status
  let pr := presenceSection env cfg.topicBase cam' inp.tracked_objects
    statusOld bestNew
  let camData4 := setk camData3 camera
    { lookupD camData3 camera CameraData.init with object_status := pr.1 }
  { state := { camera_data := camData4, zone_status := zr.1 }
    msgs := zr.2 ++ pr.2.1
    deletes := deletes
    crashed := pr.2.2 }

/-- Process a queue of snapshots from a state; an uncaught exception kills
the thread, so processing stops after a crashing step. -/
def runSeq (env : Env) (cfg : SysConfig) (s : SysState) :
    List StepInput → SysState × List Msg × List (String × ℚ) × Bool
  | [] => (s, [], [], false)
  | i :: rest =>
      let o := runStep env cfg s i
      if o.crashed then (o.state, o.msgs, o.deletes, true)
      else
        let r := runSeq env cfg o.state rest
        (r.1, o.msgs ++ r.2.1, o.deletes ++ r.2.2.1, r.2.2.2)

/-- Direct embedding of `TrackedObjectProcessor.get_best` (lines 88-92):
the returned value, together with the state after the call (the
`self.camera_data[camera]` defaultdict read inserts a fresh default entry
for an unknown camera; nothing else is touched). -/
def get_best (s : SysState) (camera label : String) :
    Option FrameBuf × SysState :=
  let cd := lookupD s.camera_data camera CameraData.init
  let s' : SysState :=
    { s with camera_data := ensureK s.camera_data camera CameraData.init }
  (match alookup cd.best_objects label with
   | some rec => some rec.frame
   | none => none, s')

/-- The best-sighting record stored for `(camera, label)` in a state. -/
def bestRec (s : SysState) (camera label : String) : Option BestRecord :=
  alookup (lookupD s.camera_data camera CameraData.init).best_objects label

/-- The plasma handle recorded for a camera's slot in a state. -/
def objIdOf (cd : List (String × CameraData)) (c : String) :
    Option (String × ℚ) :=
  (lookupD cd c CameraData.init).object_id

/-- The current frame recorded for a camera's slot in a state. -/
def frameOf (cd : List (String × CameraData)) (c : String) : FrameBuf :=
  (lookupD cd c CameraData.init).current_frame

/-- The composite events of a run: one `(camera slot, frame_time)` entry
per processed snapshot whose frame was available, tagged with the camera
variable the iteration used; later snapshots are cut off by a crash. -/
def compositeEvents (env : Env) (cfg : SysConfig) (s : SysState) :
    List StepInput → List (String × ℚ)
  | [] => []
  | i :: rest =>
      let o := runStep env cfg s i
      let ev : List (String × ℚ) :=
        match i.frame with
        | some _ => [(stepCam env cfg i.camera i.tracked_objects, i.frame_time)]
        | none => []
      ev ++ (if o.crashed then [] else compositeEvents env cfg o.state rest)

/-- The last event of a list that belongs to a given camera slot. -/
def lastFor (cam : String) (evs : List (String × ℚ)) : Option (String × ℚ) :=
  evs.foldl (fun acc e => if e.1 = cam then some e else acc) none

/-! Concrete fixtures used by counterexamples and witnesses. -/

/-- A geometry oracle whose polygons contain every point. -/
def envT : Env :=
  { inPoly := fun _ _ => true
    composite := id
    cvtColor := id
    imencode := fun _ => some 7 }

/-- A geometry oracle whose polygons contain no point. -/
def envF : Env :=
  { inPoly := fun _ _ => false
    composite := id
    cvtColor := id
    imencode := fun _ => some 7 }

/-- An environment in which JPEG encoding always fails (`ret` false). -/
def envN : Env :=
  { inPoly := fun _ _ => false
    composite := id
    cvtColor := id
    imencode := fun _ => none }

/-- A person sighting: area 5, score 1, two history entries, observed at
frame time 10. -/
def objP : TrackedObject :=
  { label := "person"
    score := 1
    area := 5
    centroid := (3, 4)
    box := (0, 0, 6, 8)
    frame_time := 10
    history := [9, 10] }

/-- A raw per-camera zone dict with a person filter of `min_area` 1000
(schema of §6: `{coordinates, filters: {label: settings}}`). -/
def rawC2 : CVal :=
  .dict [("coordinates", .str "0,0,10,0,0,10"),
         ("filters", .dict [("person", .dict [("min_area", .num 1000)])])]

/-- One zone `z` on camera `c1`, with the `rawC2` filters. -/
def cfgC2 : SysConfig :=
  { topicBase := "frigate"
    zones := [("z", [("c1", ⟨[(0, 0), (10, 0), (0, 10)], rawC2⟩)])] }

/-- One zone `z` whose only contour belongs to camera `c2`. -/
def cfgC3 : SysConfig :=
  { topicBase := "frigate"
    zones := [("z", [("c2", ⟨[(0, 0), (10, 0), (0, 10)], .dict []⟩)])] }

/-- One zone `z` on camera `c1`, no filters. -/
def cfgC1 : SysConfig :=
  { topicBase := "frigate"
    zones := [("z", [("c1", ⟨[(0, 0), (10, 0), (0, 10)], .dict []⟩)])] }

/-- A snapshot of camera `c1` at time 10 carrying `objP`, frame available. -/
def inpA : StepInput :=
  { camera := "c1"
    frame_time := 10
    tracked_objects := [objP]
    frame := some 3
    now := 11 }

/-- A snapshot of camera `c1` at time 11 carrying `objP`, frame available. -/
def inpB : StepInput :=
  { camera := "c1"
    frame_time := 11
    tracked_objects := [objP]
    frame := some 4
    now := 12 }

/-- A snapshot of camera `c1` at time 10 carrying `objP`, frame missing. -/
def inpN : StepInput :=
  { camera := "c1"
    frame_time := 10
    tracked_objects := [objP]
    frame := none
    now := 11 }

/-- A stored best record for `person` (score 2, captured at time 0,
frame 5). -/
def recW : BestRecord :=
  { obj := { objP with score := 2, frame_time := 0 }, frame := 5 }

/-- A best-objects table holding `recW` under `person`. -/
def bestW : List (String × BestRecord) := [("person", recW)]

/-- A state whose camera `cam` already holds `bestW`. -/
def stateW : SysState :=
  { camera_data := [("cam", { CameraData.init with best_objects := bestW })]
    zone_status := [] }

/-! Helper lemmas about the dict model. -/

theorem alookup_setk_self {α : Type} (m : List (String × α)) (k : String)
    (v : α) : alookup (setk m k v) k = some v := by
  induction m with
  | nil => simp [setk, alookup]
  | cons h t ih =>
    by_cases hk : h.1 = k
    · simp [setk, hk, alookup]
    · simp [setk, hk, alookup, ih]

theorem alookup_setk_ne {α : Type} (m : List (String × α)) (k k' : String)
    (v : α) (h : k' ≠ k) : alookup (setk m k v) k' = alookup m k' := by
  induction m with
  | nil => simp [setk, alookup, Ne.symm h]
  | cons hd t ih =>
    by_cases hk : hd.1 = k
    · subst hk
      simp [setk, alookup, Ne.symm h]
    · by_cases hk' : hd.1 = k'
      · simp [setk, hk, alookup, hk', h]
      · simp [setk, hk, alookup, hk', ih]

theorem lookupD_setk_self {α : Type} (m : List (String × α)) (k : String)
    (v d : α) : lookupD (setk m k v) k d = v := by
  simp [lookupD, alookup_setk_self]

theorem lookupD_setk_ne {α : Type} (m : List (String × α)) (k k' : String)
    (v d : α) (h : k' ≠ k) : lookupD (setk m k v) k' d = lookupD m k' d := by
  simp [lookupD, alookup_setk_ne _ _ _ _ h]

theorem alookup_append {α : Type} (a b : List (String × α)) (k : String) :
    alookup (a ++ b) k = ((alookup a k).orElse (fun _ => alookup b k)) := by
  induction a with
  | nil => simp [alookup]
  | cons h t ih =>
    by_cases hk : h.1 = k
    · simp [alookup, hk]
    · simp [alookup, hk, ih]

theorem lookupD_ensureK {α : Type} (m : List (String × α)) (k k' : String)
    (d : α) : lookupD (ensureK m k d) k' d = lookupD m k' d := by
  unfold ensureK
  by_cases hs : (alookup m k).isSome
  · simp [hs]
  · have hnone : alookup m k = none := by
      cases ho : alookup m k
      · rfl
      · simp [ho] at hs
    rw [if_neg hs]
    unfold lookupD
    rw [alookup_append]
    by_cases hk : k = k'
    · subst hk
      simp [hnone, alookup, Option.orElse]
    · cases ho : alookup m k' <;> simp [ho, alookup, hk, Option.orElse]

theorem alookup_eq_none_iff {α : Type} (m : List (String × α)) (k : String) :
    alookup m k = none ↔ k ∉ m.map Prod.fst := by
  induction m with
  | nil => simp [alookup]
  | cons h t ih =>
    by_cases hk : h.1 = k
    · simp [alookup, hk]
    · simp [alookup, hk, ih, Ne.symm hk]

theorem alookup_mem {α : Type} (m : List (String × α)) (k : String) (v : α)
    (h : alookup m k = some v) : (k, v) ∈ m := by
  induction m with
  | nil => simp [alookup] at h
  | cons hd t ih =>
    by_cases hk : hd.1 = k
    · simp [alookup, hk] at h
      have hhd : hd = (k, v) := by
        cases hd
        simp_all

      exact hhd ▸ List.mem_cons_self _ _
    · simp [alookup, hk] at h
      exact List.mem_cons_of_mem _ (ih h)

theorem setk_map_fst {α : Type} (m : List (String × α)) (k : String) (v : α) :
    (setk m k v).map Prod.fst
      = if (alookup m k).isSome then m.map Prod.fst
        else m.map Prod.fst ++ [k] := by
  induction m with
  | nil => simp [setk, alookup]
  | cons h t ih =>
    by_cases hk : h.1 = k
    · simp [setk, hk, alookup]
    · simp only [setk, hk, if_false, alookup, List.map_cons, ih]
      by_cases hs : (alookup t k).isSome <;> simp [hs]

theorem ensureK_map_fst {α : Type} (m : List (String × α)) (k : String)
    (d : α) :
    (ensureK m k d).map Prod.fst
      = if (alookup m k).isSome then m.map Prod.fst
        else m.map Prod.fst ++ [k] := by
  unfold ensureK
  by_cases hs : (alookup m k).isSome <;> simp [hs]

theorem setk_keys_nodup {α : Type} (m : List (String × α)) (k : String)
    (v : α) (h : (m.map Prod.fst).Nodup) :
    ((setk m k v).map Prod.fst).Nodup := by
  rw [setk_map_fst]
  by_cases hs : (alookup m k).isSome
  · simpa [hs]
  · simp only [hs, if_false]
    have hk : k ∉ m.map Prod.fst := by
      rw [← alookup_eq_none_iff]
      simpa using hs
    simp [List.nodup_append, h, hk]

theorem ensureK_keys_nodup {α : Type} (m : List (String × α)) (k : String)
    (d : α) (h : (m.map Prod.fst).Nodup) :
    ((ensureK m k d).map Prod.fst).Nodup := by
  rw [ensureK_map_fst]
  by_cases hs : (alookup m k).isSome
  · simpa [hs]
  · simp only [hs, if_false]
    have hk : k ∉ m.map Prod.fst := by
      rw [← alookup_eq_none_iff]
      simpa using hs
    simp [List.nodup_append, h, hk]

theorem mem_dedupAux (l : List String) :
    ∀ (seen : List String) (x : String),
      x ∈ dedupAux seen l ↔ x ∈ l ∧ x ∉ seen := by
  induction l with
  | nil => intro seen x; simp [dedupAux]
  | cons h t ih =>
    intro seen x
    by_cases hm : h ∈ seen
    · simp only [dedupAux, if_pos hm, ih]
      constructor
      · rintro ⟨hx, hs⟩
        exact ⟨List.mem_cons_of_mem _ hx, hs⟩
      · rintro ⟨hx, hs⟩
        rcases List.mem_cons.mp hx with rfl | hx
        · exact absurd hm hs
        · exact ⟨hx, hs⟩
    · simp only [dedupAux, if_neg hm]
      constructor
      · intro hx
        rcases List.mem_cons.mp hx with rfl | hx
        · exact ⟨List.mem_cons_self _ _, hm⟩
        · obtain ⟨hxt, hxs⟩ := (ih _ _).mp hx
          exact ⟨List.mem_cons_of_mem _ hxt,
            fun hc => hxs (List.mem_cons_of_mem _ hc)⟩
      · rintro ⟨hx, hs⟩
        rcases List.mem_cons.mp hx with rfl | hx
        · exact List.mem_cons_self _ _
        · by_cases hxh : x = h
          · subst hxh
            exact List.mem_cons_self _ _
          · refine List.mem_cons_of_mem _ ((ih _ _).mpr ⟨hx, ?_⟩)
            intro hc
            rcases List.mem_cons.mp hc with h1 | h2
            · exact hxh h1
            · exact hs h2

theorem mem_dedup (l : List String) (x : String) : x ∈ dedup l ↔ x ∈ l := by
  simp [dedup, mem_dedupAux]

theorem nodup_dedupAux (l : List String) :
    ∀ seen : List String, (dedupAux seen l).Nodup := by
  induction l with
  | nil => intro seen; simp [dedupAux]
  | cons h t ih =>
    intro seen
    by_cases hm : h ∈ seen
    · simpa [dedupAux, hm] using ih seen
    · simp only [dedupAux, if_neg hm]
      refine List.nodup_cons.mpr ⟨?_, ih _⟩
      rw [mem_dedupAux]
      simp

theorem nodup_dedup (l : List String) : (dedup l).Nodup := nodup_dedupAux l []

/-! Lemmas about the zone occupancy aggregation. -/

theorem any_congr_mem {α : Type} (l : List α) (p q : α → Bool)
    (h : ∀ a ∈ l, p a = q a) : l.any p = l.any q := by
  induction l with
  | nil => rfl
  | cons hd t ih =>
    simp only [List.any_cons]
    rw [h hd (List.mem_cons_self _ _),
      ih (fun a ha => h a (List.mem_cons_of_mem _ ha))]

theorem camOr_ensure_map (cams : CamStatus) (label l' : String) :
    camOr (cams.map (fun c => (c.1, ensureL c.2 label))) l' = camOr cams l' := by
  unfold camOr
  rw [List.any_map]
  apply any_congr_mem
  intro c _
  simp only [Function.comp]
  unfold ensureL
  rw [lookupD_ensureK]

theorem pollLabel_fst_or (cams : CamStatus) (label l' : String) :
    camOr (pollLabel cams label).1 l' = camOr cams l' := by
  unfold pollLabel
  exact camOr_ensure_map cams label l'

theorem pollLabel_snd (cams : CamStatus) (label : String) :
    (pollLabel cams label).2 = camOr cams label := by
  unfold pollLabel
  exact camOr_ensure_map cams label label

theorem camOr_setk_inner_ne (cams : CamStatus) (c label : String) (v : String)
    (l' : String) (h : l' ≠ label) :
    camOr (setk cams c (setk (lookupD cams c []) label v)) l' = camOr cams l' := by
  induction cams with
  | nil =>
    simp [setk, camOr, lookupD, alookup, Ne.symm h]
  | cons hd t ih =>
    obtain ⟨k0, i0⟩ := hd
    by_cases hc : k0 = c
    · subst hc
      have h1 : lookupD ((k0, i0) :: t) k0 ([] : List (String × String)) = i0 := by
        simp [lookupD, alookup]
      have h2 : setk ((k0, i0) :: t) k0 (setk i0 label v)
          = (k0, setk i0 label v) :: t := by
        simp [setk]
      rw [h1, h2]
      unfold camOr
      simp only [List.any_cons]
      rw [show lookupD (setk i0 label v) l' "OFF" = lookupD i0 l' "OFF" from
        lookupD_setk_ne _ _ _ _ _ h]
    · have h1 : lookupD ((k0, i0) :: t) c ([] : List (String × String))
          = lookupD t c [] := by
        simp [lookupD, alookup, hc]
      have h2 : setk ((k0, i0) :: t) c (setk (lookupD t c []) label v)
          = (k0, i0) :: setk t c (setk (lookupD t c []) label v) := by
        simp [setk, hc]
      rw [h1, h2]
      unfold camOr
      simp only [List.any_cons]
      unfold camOr at ih
      rw [ih]

theorem camOr_ensureK_empty (cams : CamStatus) (c l : String) :
    camOr (ensureK cams c []) l = camOr cams l := by
  unfold ensureK
  by_cases hs : (alookup cams c).isSome
  · simp [hs]
  · rw [if_neg hs]
    unfold camOr
    rw [List.any_append]
    simp [lookupD, alookup]

theorem msgsOn_append (a b : List Msg) (t : List String) :
    msgsOn (a ++ b) t = msgsOn a t ++ msgsOn b t := by
  unfold msgsOn
  rw [List.filter_append]

theorem msgsOn_all (l : List Msg) (t : List String)
    (h : ∀ m ∈ l, m.topic = t) : msgsOn l t = l := by
  induction l with
  | nil => rfl
  | cons hd tl ih =>
    have h1 := h hd (List.mem_cons_self _ _)
    have ih' := ih (fun m hm => h m (List.mem_cons_of_mem _ hm))
    unfold msgsOn at ih' ⊢
    simp [List.filter_cons, h1, ih']

theorem msgsOn_nil (l : List Msg) (t : List String)
    (h : ∀ m ∈ l, m.topic ≠ t) : msgsOn l t = [] := by
  induction l with
  | nil => rfl
  | cons hd tl ih =>
    have h1 := h hd (List.mem_cons_self _ _)
    have ih' := ih (fun m hm => h m (List.mem_cons_of_mem _ hm))
    unfold msgsOn at ih' ⊢
    simp [List.filter_cons, h1, ih']

theorem edgeMsgs_topics (base zone label : String) (p n : Bool) :
    ∀ m ∈ edgeMsgs base zone label p n, m.topic = [base, zone, label] := by
  intro m hm
  unfold edgeMsgs at hm
  by_cases h1 : p = false ∧ n = true
  · simp [h1] at hm
    rw [hm]
  · by_cases h2 : p = true ∧ n = false
    · simp [h1, h2] at hm
      rw [hm]
    · simp [h1, h2] at hm

theorem edgeMsgs_refl (base zone label : String) (b : Bool) :
    edgeMsgs base zone label b b = [] := by
  cases b <;> simp [edgeMsgs]

theorem processZoneLabel_msgs (base zone camStep : String) (inZone : Bool)
    (cams : CamStatus) (label : String) :
    (processZoneLabel base zone camStep inZone cams label).2
      = edgeMsgs base zone label (camOr cams label)
          (camOr (processZoneLabel base zone camStep inZone cams label).1 label) := by
  unfold processZoneLabel
  simp only []
  rw [pollLabel_snd, pollLabel_snd, pollLabel_fst_or]

theorem processZoneLabel_or_ne (base zone camStep : String) (inZone : Bool)
    (cams : CamStatus) (label l' : String) (h : l' ≠ label) :
    camOr (processZoneLabel base zone camStep inZone cams label).1 l'
      = camOr cams l' := by
  unfold processZoneLabel
  simp only []
  rw [pollLabel_fst_or, camOr_setk_inner_ne _ _ _ _ _ h, pollLabel_fst_or]

theorem processZoneLabel_topics (base zone camStep : String) (inZone : Bool)
    (cams : CamStatus) (label : String) :
    ∀ m ∈ (processZoneLabel base zone camStep inZone cams label).2,
      m.topic = [base, zone, label] := by
  intro m hm
  rw [processZoneLabel_msgs] at hm
  exact edgeMsgs_topics _ _ _ _ _ m hm

theorem zoneLabelLoop_topics (base zone camStep : String) (mem : MemberMap) :
    ∀ (ls : List String) (cams : CamStatus),
      ∀ m ∈ (zoneLabelLoop base zone camStep mem cams ls).2,
        ∃ l', m.topic = [base, zone, l'] := by
  intro ls
  induction ls with
  | nil => intro cams m hm; simp [zoneLabelLoop] at hm
  | cons x rest ih =>
    intro cams m hm
    unfold zoneLabelLoop at hm
    simp only [List.mem_append] at hm
    rcases hm with hm | hm
    · exact ⟨x, processZoneLabel_topics _ _ _ _ _ _ m hm⟩
    · exact ih _ m hm

theorem zoneLabelLoop_or_notin (base zone camStep : String) (mem : MemberMap)
    (label : String) :
    ∀ (ls : List String) (cams : CamStatus), label ∉ ls →
      camOr (zoneLabelLoop base zone camStep mem cams ls).1 label
        = camOr cams label := by
  intro ls
  induction ls with
  | nil => intro cams _; rfl
  | cons x rest ih =>
    intro cams hl
    have hx : x ≠ label := fun hc => hl (hc ▸ List.mem_cons_self _ _)
    have hr : label ∉ rest := fun hc => hl (List.mem_cons_of_mem _ hc)
    unfold zoneLabelLoop
    simp only []
    rw [ih _ hr, processZoneLabel_or_ne _ _ _ _ _ _ _ (Ne.symm hx)]

theorem zoneLabelLoop_spec (base zone camStep : String) (mem : MemberMap)
    (label : String) :
    ∀ (ls : List String) (cams : CamStatus), ls.Nodup →
      msgsOn (zoneLabelLoop base zone camStep mem cams ls).2 [base, zone, label]
        = edgeMsgs base zone label (camOr cams label)
            (camOr (zoneLabelLoop base zone camStep mem cams ls).1 label) := by
  intro ls
  induction ls with
  | nil =>
    intro cams _
    simp [zoneLabelLoop, msgsOn, edgeMsgs_refl]
  | cons x rest ih =>
    intro cams hnd
    have hnd' : rest.Nodup := (List.nodup_cons.mp hnd).2
    unfold zoneLabelLoop
    simp only []
    rw [msgsOn_append]
    by_cases hx : x = label
    · subst hx
      have hrest : x ∉ rest := (List.nodup_cons.mp hnd).1
      have h1 : msgsOn (processZoneLabel base zone camStep
          (x ∈ memGet mem zone) cams x).2 [base, zone, x]
          = (processZoneLabel base zone camStep (x ∈ memGet mem zone) cams x).2 :=
        msgsOn_all _ _ (processZoneLabel_topics _ _ _ _ _ _)
      have h2 : msgsOn (zoneLabelLoop base zone camStep mem
          (processZoneLabel base zone camStep (x ∈ memGet mem zone) cams x).1
          rest).2 [base, zone, x] = [] := by
        rw [ih _ hnd',
          zoneLabelLoop_or_notin base zone camStep mem x rest _ hrest,
          edgeMsgs_refl]
      rw [h1, h2, List.append_nil, processZoneLabel_msgs,
        zoneLabelLoop_or_notin base zone camStep mem x rest _ hrest]
    · have h1 : msgsOn (processZoneLabel base zone camStep
          (x ∈ memGet mem zone) cams x).2 [base, zone, label] = [] := by
        apply msgsOn_nil
        intro m hm
        rw [processZoneLabel_topics _ _ _ _ _ _ m hm]
        simp [hx]
      rw [h1, List.nil_append,
        ih _ hnd', processZoneLabel_or_ne _ _ _ _ _ _ _ (Ne.symm hx)]

theorem processZone_spec_self (base camStep : String) (mem : MemberMap)
    (zst : List (String × CamStatus)) (zone label : String) :
    msgsOn (processZone base camStep mem zst zone).2 [base, zone, label]
      = edgeMsgs base zone label (aggOr zst zone label)
          (aggOr (processZone base camStep mem zst zone).1 zone label) := by
  unfold processZone
  simp only []
  rw [zoneLabelLoop_spec _ _ _ _ _ _ _ (nodup_dedup _)]
  unfold aggOr
  rw [lookupD_setk_self, camOr_ensureK_empty]

theorem processZone_other (base camStep : String) (mem : MemberMap)
    (zst : List (String × CamStatus)) (zone' zone label : String)
    (h : zone' ≠ zone) :
    aggOr (processZone base camStep mem zst zone').1 zone label
        = aggOr zst zone label
      ∧ msgsOn (processZone base camStep mem zst zone').2 [base, zone, label]
        = [] := by
  constructor
  · unfold processZone aggOr
    simp only []
    rw [lookupD_setk_ne _ _ _ _ _ (Ne.symm h)]
  · unfold processZone
    simp only []
    apply msgsOn_nil
    intro m hm
    obtain ⟨l', hl'⟩ := zoneLabelLoop_topics _ _ _ _ _ _ m hm
    rw [hl']
    simp [h]

theorem zoneLoop_or_notin (base camStep : String) (mem : MemberMap)
    (zone label : String) :
    ∀ (zs : List String) (zst : List (String × CamStatus)), zone ∉ zs →
      aggOr (zoneLoop base camStep mem zst zs).1 zone label
        = aggOr zst zone label := by
  intro zs
  induction zs with
  | nil => intro zst _; rfl
  | cons z rest ih =>
    intro zst hz
    have hzz : z ≠ zone := fun hc => hz (hc ▸ List.mem_cons_self _ _)
    have hr : zone ∉ rest := fun hc => hz (List.mem_cons_of_mem _ hc)
    unfold zoneLoop
    simp only []
    rw [ih _ hr, (processZone_other base camStep mem zst z zone label hzz).1]

theorem zoneLoop_spec (base camStep : String) (mem : MemberMap)
    (zone label : String) :
    ∀ (zs : List String) (zst : List (String × CamStatus)), zs.Nodup →
      msgsOn (zoneLoop base camStep mem zst zs).2 [base, zone, label]
        = edgeMsgs base zone label (aggOr zst zone label)
            (aggOr (zoneLoop base camStep mem zst zs).1 zone label) := by
  intro zs
  induction zs with
  | nil =>
    intro zst _
    simp [zoneLoop, msgsOn, edgeMsgs_refl]
  | cons z rest ih =>
    intro zst hnd
    have hnd' : rest.Nodup := (List.nodup_cons.mp hnd).2
    unfold zoneLoop
    simp only []
    rw [msgsOn_append]
    by_cases hz : z = zone
    · subst hz
      have hrest : z ∉ rest := (List.nodup_cons.mp hnd).1
      rw [processZone_spec_self, ih _ hnd',
        zoneLoop_or_notin base camStep mem z label rest _ hrest, edgeMsgs_refl,
        List.append_nil]
    · rw [(processZone_other base camStep mem zst z zone label hz).2,
        List.nil_append, ih _ hnd',
        (processZone_other base camStep mem zst z zone label hz).1]

theorem zoneSection_spec (base camStep : String) (cfg : SysConfig)
    (mem : MemberMap) (zst : List (String × CamStatus)) (zone label : String)
    (h : (cfg.zones.map Prod.fst).Nodup) :
    msgsOn (zoneSection base camStep cfg mem zst).2 [base, zone, label]
      = edgeMsgs base zone label (aggOr zst zone label)
          (aggOr (zoneSection base camStep cfg mem zst).1 zone label) := by
  unfold zoneSection
  simp only []
  apply zoneLoop_spec
  have hsub : List.Sublist
      ((cfg.zones.filter
        (fun zc => (alookup zc.2 camStep).isSome)).map Prod.fst)
      (cfg.zones.map Prod.fst) :=
    List.Sublist.map _ (List.filter_sublist _)
  exact List.Nodup.sublist hsub h

theorem presLoop1_topics (env : Env) (base camStep : String)
    (counted : List String) (best : List (String × BestRecord)) :
    ∀ (ls : List String) (st : List (String × String)),
      ∀ m ∈ (presLoop1 env base camStep counted best st ls).2.1,
        (∃ n, m.topic = [base, camStep, n])
          ∨ (∃ n, m.topic = [base, camStep, n, "snapshot"]) := by
  intro ls
  induction ls with
  | nil => intro st m hm; simp [presLoop1] at hm
  | cons name rest ih =>
    intro st m hm
    unfold presLoop1 at hm
    by_cases hedge : (if counted.count name > 0 then "ON" else "OFF")
        ≠ lookupD st name "OFF"
    · rw [if_pos hedge] at hm
      rcases hb : alookup best name with _ | rec
      · rw [hb] at hm
        simp at hm
        rw [hm]
        exact Or.inl ⟨name, rfl⟩
      · rw [hb] at hm
        simp only [List.cons_append, List.mem_cons] at hm
        rcases hm with rfl | hm
        · exact Or.inl ⟨name, rfl⟩
        · rcases henc : env.imencode (env.cvtColor rec.frame) with _ | j
          · rw [henc] at hm
            simp only [List.nil_append] at hm
            exact ih _ m hm
          · rw [henc] at hm
            simp only [List.singleton_append, List.mem_cons] at hm
            rcases hm with rfl | hm
            · exact Or.inr ⟨name, rfl⟩
            · exact ih _ m hm
    · rw [if_neg hedge] at hm
      exact ih _ m hm

theorem presLoop2_topics (env : Env) (base camStep : String)
    (best : List (String × BestRecord)) :
    ∀ (ls : List String) (st : List (String × String)),
      ∀ m ∈ (presLoop2 env base camStep best st ls).2.1,
        (∃ n, m.topic = [base, camStep, n])
          ∨ (∃ n, m.topic = [base, camStep, n, "snapshot"]) := by
  intro ls
  induction ls with
  | nil => intro st m hm; simp [presLoop2] at hm
  | cons name rest ih =>
    intro st m hm
    unfold presLoop2 at hm
    rcases hb : alookup best name with _ | rec
    · rw [hb] at hm
      simp at hm
      rw [hm]
      exact Or.inl ⟨name, rfl⟩
    · rw [hb] at hm
      simp only [List.cons_append, List.mem_cons] at hm
      rcases hm with rfl | hm
      · exact Or.inl ⟨name, rfl⟩
      · rcases henc : env.imencode (env.cvtColor rec.frame) with _ | j
        · rw [henc] at hm
          simp only [List.nil_append] at hm
          exact ih _ m hm
        · rw [henc] at hm
          simp only [List.singleton_append, List.mem_cons] at hm
          rcases hm with rfl | hm
          · exact Or.inr ⟨name, rfl⟩
          · exact ih _ m hm

theorem presenceSection_topics (env : Env) (base camStep : String)
    (objs : List TrackedObject) (status : List (String × String))
    (best : List (String × BestRecord)) :
    ∀ m ∈ (presenceSection env base camStep objs status best).2.1,
      (∃ n, m.topic = [base, camStep, n])
        ∨ (∃ n, m.topic = [base, camStep, n, "snapshot"]) := by
  intro m hm
  unfold presenceSection at hm
  by_cases hc : (presLoop1 env base camStep
      ((objs.filter (fun o => o.history.length > 1)).map (fun o => o.label))
      best status
      (dedup ((objs.filter (fun o => o.history.length > 1)).map
        (fun o => o.label)))).2.2
  · rw [if_pos hc] at hm
    exact presLoop1_topics _ _ _ _ _ _ _ m hm
  · rw [if_neg hc] at hm
    simp only [List.mem_append] at hm
    rcases hm with hm | hm
    · exact presLoop1_topics _ _ _ _ _ _ _ m hm
    · exact presLoop2_topics _ _ _ _ _ _ m hm

theorem runStep_zone_status (env : Env) (cfg : SysConfig) (s : SysState)
    (inp : StepInput) :
    (runStep env cfg s inp).state.zone_status
      = (zoneSection cfg.topicBase
          (stepCam env cfg inp.camera inp.tracked_objects) cfg
          (zoneScan env cfg inp.camera inp.tracked_objects).1
          s.zone_status).1 := rfl

theorem runStep_msgs_shape (env : Env) (cfg : SysConfig) (s : SysState)
    (inp : StepInput) :
    ∃ (status : List (String × String)) (best : List (String × BestRecord)),
      (runStep env cfg s inp).msgs
        = (zoneSection cfg.topicBase
            (stepCam env cfg inp.camera inp.tracked_objects) cfg
            (zoneScan env cfg inp.camera inp.tracked_objects).1
            s.zone_status).2
          ++ (presenceSection env cfg.topicBase
              (stepCam env cfg inp.camera inp.tracked_objects)
              inp.tracked_objects status best).2.1 :=
  ⟨_, _, rfl⟩

theorem runStep_msgs_edge (env : Env) (cfg : SysConfig) (s : SysState)
    (inp : StepInput) (zone label : String)
    (hzones : (cfg.zones.map Prod.fst).Nodup)
    (hcam : zone ≠ stepCam env cfg inp.camera inp.tracked_objects) :
    msgsOn (runStep env cfg s inp).msgs [cfg.topicBase, zone, label]
      = edgeMsgs cfg.topicBase zone label (aggOr s.zone_status zone label)
          (aggOr (runStep env cfg s inp).state.zone_status zone label) := by
  obtain ⟨status, best, hmsgs⟩ := runStep_msgs_shape env cfg s inp
  have hpres : msgsOn (presenceSection env cfg.topicBase
      (stepCam env cfg inp.camera inp.tracked_objects)
      inp.tracked_objects status best).2.1 [cfg.topicBase, zone, label] = [] := by
    apply msgsOn_nil
    intro m hm
    rcases presenceSection_topics _ _ _ _ _ _ m hm with ⟨n, hn⟩ | ⟨n, hn⟩
    · rw [hn]
      intro hc
      have : stepCam env cfg inp.camera inp.tracked_objects = zone := by
        injection hc with _ hc2
        injection hc2 with hc3 _
      exact hcam this.symm
    · rw [hn]
      intro hc
      have : ([cfg.topicBase, stepCam env cfg inp.camera inp.tracked_objects,
          n, "snapshot"] : List String).length
          = ([cfg.topicBase, zone, label] : List String).length := by rw [hc]
      simp at this
  rw [hmsgs, msgsOn_append, hpres, List.append_nil,
    zoneSection_spec _ _ _ _ _ _ _ hzones, runStep_zone_status]

/-- C1.  For every processed snapshot (from any prior state, hence at any
point of any snapshot sequence) and every `(zone, label)` pair, the step
publishes exactly one `ON` message on `{prefix}/{zone}/{label}` when the
aggregate OR of the label's per-camera entries for that zone goes from
false to true, exactly one `OFF` message when it goes from true to false,
and nothing on that topic when the aggregate is unchanged (in particular
when only the set of cameras reporting ON changed).  Side conditions: zone
names are unique (Python dict keys) and the zone name differs from the
camera name that the step's publishes use, so that zone topics and
whole-frame presence topics do not collide. -/
theorem zone_occupancy_edge_publish (env : Env) (cfg : SysConfig)
    (s : SysState) (inp : StepInput) (zone label : String)
    (hzones : (cfg.zones.map Prod.fst).Nodup)
    (hcam : zone ≠ stepCam env cfg inp.camera inp.tracked_objects) :
    (aggOr s.zone_status zone label = false →
      aggOr (runStep env cfg s inp).state.zone_status zone label = true →
      msgsOn (runStep env cfg s inp).msgs [cfg.topicBase, zone, label]
        = [⟨[cfg.topicBase, zone, label], .str "ON", false⟩]) ∧
    (aggOr s.zone_status zone label = true →
      aggOr (runStep env cfg s inp).state.zone_status zone label = false →
      msgsOn (runStep env cfg s inp).msgs [cfg.topicBase, zone, label]
        = [⟨[cfg.topicBase, zone, label], .str "OFF", false⟩]) ∧
    (aggOr s.zone_status zone label
        = aggOr (runStep env cfg s inp).state.zone_status zone label →
      msgsOn (runStep env cfg s inp).msgs [cfg.topicBase, zone, label]
        = []) := by
  have hedge := runStep_msgs_edge env cfg s inp zone label hzones hcam
  refine ⟨?_, ?_, ?_⟩
  · intro h1 h2
    rw [hedge, h1, h2]
    simp [edgeMsgs]
  · intro h1 h2
    rw [hedge, h1, h2]
    simp [edgeMsgs]
  · intro h
    rw [hedge, h, edgeMsgs_refl]

/-- C1 witness: from the initial state, a person inside zone `z` of camera
`c1` flips the aggregate OR from false to true and exactly the ON message
is published on the zone topic. -/
theorem zone_occupancy_edge_publish_witness :
    msgsOn (runStep envT cfgC1 initState inpA).msgs ["frigate", "z", "person"]
      = [⟨["frigate", "z", "person"], .str "ON", false⟩] :=
  (zone_occupancy_edge_publish envT cfgC1 initState inpA "z" "person"
    (by decide) (by decide)).1 (by decide) (by decide)

theorem frameOf_setk (m : List (String × CameraData)) (k : String)
    (v : CameraData) (c : String) :
    frameOf (setk m k v) c
      = if c = k then v.current_frame else frameOf m c := by
  unfold frameOf
  by_cases hc : c = k
  · subst hc
    rw [lookupD_setk_self, if_pos rfl]
  · rw [lookupD_setk_ne _ _ _ _ _ hc, if_neg hc]

theorem objIdOf_setk (m : List (String × CameraData)) (k : String)
    (v : CameraData) (c : String) :
    objIdOf (setk m k v) c
      = if c = k then v.object_id else objIdOf m c := by
  unfold objIdOf
  by_cases hc : c = k
  · subst hc
    rw [lookupD_setk_self, if_pos rfl]
  · rw [lookupD_setk_ne _ _ _ _ _ hc, if_neg hc]

/-- C4.  The replacement policy of the best-objects loop, for an object
observed on the current frame: with no stored record the object becomes
the record unconditionally; with a stored record it is replaced exactly
when the new score is strictly greater or more than 60 seconds have
passed since the stored record's capture time, and consequently a
replacement within the 60-second window never decreases the retained
score. -/
theorem best_sighting_replacement_policy (now ft : ℚ) (f : FrameBuf)
    (b : List (String × BestRecord)) (obj : TrackedObject)
    (h : obj.frame_time = ft) :
    (alookup b obj.label = none →
      alookup (updateBestOne now ft f b obj) obj.label = some ⟨obj, f⟩) ∧
    (∀ rec, alookup b obj.label = some rec →
      alookup (updateBestOne now ft f b obj) obj.label
        = some (if obj.score > rec.obj.score ∨ now - rec.obj.frame_time > 60
            then ⟨obj, f⟩ else rec)) ∧
    (∀ rec rec', alookup b obj.label = some rec →
      now - rec.obj.frame_time ≤ 60 →
      alookup (updateBestOne now ft f b obj) obj.label = some rec' →
      rec.obj.score ≤ rec'.obj.score) := by
  have hne : ¬(obj.frame_time ≠ ft) := fun hc => hc h
  refine ⟨?_, ?_, ?_⟩
  · intro hn
    unfold updateBestOne
    rw [if_neg hne, hn]
    exact alookup_setk_self _ _ _
  · intro rec hr
    unfold updateBestOne
    rw [if_neg hne]
    simp only [hr]
    by_cases hcond : obj.score > rec.obj.score ∨ now - rec.obj.frame_time > 60
    · rw [if_pos hcond, if_pos hcond]
      exact alookup_setk_self _ _ _
    · rw [if_neg hcond, if_neg hcond]
      exact hr
  · intro rec rec' hr hle hres
    unfold updateBestOne at hres
    rw [if_neg hne] at hres
    simp only [hr] at hres
    by_cases hcond : obj.score > rec.obj.score ∨ now - rec.obj.frame_time > 60
    · rw [if_pos hcond, alookup_setk_self] at hres
      have hrec' : rec' = ⟨obj, f⟩ := by
        injection hres with h1
        exact h1.symm
      rcases hcond with hsc | htime
      · rw [hrec']
        exact le_of_lt hsc
      · exact absurd htime (not_lt.mpr hle)
    · rw [if_neg hcond] at hres
      rw [hr] at hres
      injection hres with h1
      rw [← h1]

/-- C4 witness: with no stored person record, a current-frame sighting
becomes the record unconditionally. -/
theorem best_sighting_replacement_policy_witness :
    alookup (updateBestOne 11 10 3 [] objP) "person" = some ⟨objP, 3⟩ :=
  (best_sighting_replacement_policy 11 10 3 [] objP rfl).1 rfl

/-- C5.  An object whose own observation timestamp differs from the
snapshot's frame timestamp is skipped by the best-objects loop: the
best-sighting table is returned untouched, so no record is created,
replaced or modified on its account. -/
theorem stale_object_skips_best_update (now ft : ℚ) (f : FrameBuf)
    (b : List (String × BestRecord)) (obj : TrackedObject)
    (h : obj.frame_time ≠ ft) :
    updateBestOne now ft f b obj = b := by
  unfold updateBestOne
  rw [if_pos h]

/-- C5 witness: a stale person sighting (observed at 10, frame at 99)
leaves the stored table unchanged. -/
theorem stale_object_skips_best_update_witness :
    updateBestOne 11 99 3 bestW objP = bestW :=
  stale_object_skips_best_update 11 99 3 bestW objP (by decide)

/-- C10.  The `get_best` accessor returns `none` exactly when no record is
stored for the `(camera, label)` pair, otherwise the stored record's
frame; it is a total function (never raises) and the state after the call
stores exactly the same best-sighting records as before (the only side
effect is the defaultdict materialising an empty entry for an unknown
camera). -/
theorem get_best_total_and_pure (s : SysState) (camera label : String) :
    ((get_best s camera label).1 = none ↔ bestRec s camera label = none) ∧
    (∀ rec, bestRec s camera label = some rec →
      (get_best s camera label).1 = some rec.frame) ∧
    (∀ c l, bestRec (get_best s camera label).2 c l = bestRec s c l) := by
  refine ⟨?_, ?_, ?_⟩
  · unfold get_best bestRec
    cases h : alookup (lookupD s.camera_data camera
        CameraData.init).best_objects label <;> simp [h]
  · intro rec hr
    unfold get_best
    unfold bestRec at hr
    simp [hr]
  · intro c l
    unfold get_best bestRec
    simp only []
    rw [lookupD_ensureK]

/-- C10 witness: querying a stored record returns its frame. -/
theorem get_best_total_and_pure_witness :
    (get_best stateW "cam" "person").1 = some 5 :=
  (get_best_total_and_pure stateW "cam" "person").2.1 recW (by decide)

/-- C2 is violated by the code: the zone `z` of camera `c1` configures a
person filter with `min_area` 1000, the person object's area is 5 (well
below the minimum) and its bottom-center is inside the polygon, yet
`zone_filtered` returns false — the call site already passes
`zone_config[name][camera].get('filters', {})` and the function body looks
up `'filters'` a second time, so the configured per-label filters are
never consulted — and the object still contributes `person` to the zone's
membership list. -/
theorem zone_filter_double_lookup_bug :
    ((rawC2.get "filters" (.dict [])).get "person" (.dict [])).getNum
        "min_area" (-1) = 1000
      ∧ objP.area = 5
      ∧ objP.label = "person"
      ∧ zone_filtered objP (rawC2.get "filters" (.dict [])) = false
      ∧ memGet (zoneScan envT cfgC2 "c1" [objP]).1 "z" = ["person"] := by
  decide

/-- C3 is violated by the code: the snapshot comes from camera `c1`, zone
`z` has no polygon for `c1` at all (only one for `c2`), yet because the
membership loop iterates every camera's contour of every zone
(`for camera, contour in zone['contours'].items()`), the object's point is
tested against `c2`'s polygon and `person` is added to the membership map
for `c1`'s snapshot; as a side effect the loop variable `camera` is left
holding `c2`. -/
theorem zone_membership_cross_camera_bug :
    (alookup (lookupD cfgC3.zones "z" []) "c1").isSome = false
      ∧ memGet (zoneScan envT cfgC3 "c1" [objP]).1 "z" = ["person"]
      ∧ stepCam envT cfgC3 "c1" [objP] = "c2" := by
  decide

/-- C8 is violated by the code: processing a snapshot of camera `c1`
(whose person object has history length 2, so presence flips to ON, with
the ON status recorded under `c1`), the state and retained-snapshot
messages are published on `frigate/c2/person` and
`frigate/c2/person/snapshot` — `c2` being the camera left in the
clobbered loop variable by zone `z`'s contour iteration — instead of the
snapshot camera's topics. -/
theorem presence_topic_clobbered_camera_bug :
    (runStep envF cfgC3 initState inpN).msgs
        = [⟨["frigate", "c2", "person"], .str "ON", false⟩,
           ⟨["frigate", "c2", "person", "snapshot"], .jpg 7, true⟩]
      ∧ inpN.camera = "c1"
      ∧ (lookupD (runStep envF cfgC3 initState inpN).state.camera_data "c1"
          CameraData.init).object_status = [("person", "ON")] := by
  decide

/-- C6.  When the plasma store has no frame for the key (the fetch returns
`ObjectNotAvailable`), the whole annotation / current-frame / handle-swap
block is skipped — every camera's current frame and plasma handle are
unchanged and nothing is deleted from the store — while the zone occupancy
update (with its edge-triggered publishes), the best-sighting update
(running against the unchanged current frame of the loop's camera slot)
and the whole-frame presence reporting still run for the cycle. -/
theorem frame_unavailable_skips_only_frame_path (env : Env) (cfg : SysConfig)
    (s : SysState) (inp : StepInput) (h : inp.frame = none) :
    (∀ c, frameOf (runStep env cfg s inp).state.camera_data c
        = frameOf s.camera_data c) ∧
    (∀ c, objIdOf (runStep env cfg s inp).state.camera_data c
        = objIdOf s.camera_data c) ∧
    (runStep env cfg s inp).deletes = [] ∧
    (runStep env cfg s inp).state.zone_status
      = (zoneSection cfg.topicBase
          (stepCam env cfg inp.camera inp.tracked_objects) cfg
          (zoneScan env cfg inp.camera inp.tracked_objects).1
          s.zone_status).1 ∧
    (lookupD (runStep env cfg s inp).state.camera_data inp.camera
        CameraData.init).best_objects
      = inp.tracked_objects.foldl
          (fun b o => updateBestOne inp.now inp.frame_time
            (frameOf s.camera_data
              (stepCam env cfg inp.camera inp.tracked_objects)) b o)
          (lookupD s.camera_data inp.camera CameraData.init).best_objects ∧
    (runStep env cfg s inp).msgs
      = (zoneSection cfg.topicBase
          (stepCam env cfg inp.camera inp.tracked_objects) cfg
          (zoneScan env cfg inp.camera inp.tracked_objects).1
          s.zone_status).2
        ++ (presenceSection env cfg.topicBase
            (stepCam env cfg inp.camera inp.tracked_objects)
            inp.tracked_objects
            (lookupD s.camera_data inp.camera CameraData.init).object_status
            (inp.tracked_objects.foldl
              (fun b o => updateBestOne inp.now inp.frame_time
                (frameOf s.camera_data
                  (stepCam env cfg inp.camera inp.tracked_objects)) b o)
              (lookupD s.camera_data inp.camera
                CameraData.init).best_objects)).2.1 ∧
    (lookupD (runStep env cfg s inp).state.camera_data inp.camera
        CameraData.init).object_status
      = (presenceSection env cfg.topicBase
          (stepCam env cfg inp.camera inp.tracked_objects)
          inp.tracked_objects
          (lookupD s.camera_data inp.camera CameraData.init).object_status
          (inp.tracked_objects.foldl
            (fun b o => updateBestOne inp.now inp.frame_time
              (frameOf s.camera_data
                (stepCam env cfg inp.camera inp.tracked_objects)) b o)
            (lookupD s.camera_data inp.camera
              CameraData.init).best_objects)).1 := by
  refine ⟨?_, ?_, ?_, ?_, ?_, ?_, ?_⟩
  · intro c
    simp only [runStep, h]
    rw [frameOf_setk, frameOf_setk, frameOf_setk]
    by_cases hc : c = inp.camera <;> simp [hc, lookupD_setk_self, frameOf]
  · intro c
    simp only [runStep, h]
    rw [objIdOf_setk, objIdOf_setk, objIdOf_setk]
    by_cases hc : c = inp.camera <;> simp [hc, lookupD_setk_self, objIdOf]
  · simp only [runStep, h]
  · rfl
  · simp only [runStep, h, stepCam]
    simp only [lookupD_setk_self]
    by_cases hc : (zoneScan env cfg inp.camera inp.tracked_objects).2
        = inp.camera
    · simp [hc, lookupD_setk_self, frameOf]
    · simp [lookupD_setk_ne _ _ _ _ _ hc, frameOf]
  · simp only [runStep, h, stepCam]
    simp only [lookupD_setk_self]
    by_cases hc : (zoneScan env cfg inp.camera inp.tracked_objects).2
        = inp.camera
    · simp [hc, lookupD_setk_self, frameOf]
    · simp [lookupD_setk_ne _ _ _ _ _ hc, frameOf]
  · simp only [runStep, h, stepCam]
    simp only [lookupD_setk_self]
    by_cases hc : (zoneScan env cfg inp.camera inp.tracked_objects).2
        = inp.camera
    · simp [hc, lookupD_setk_self, frameOf]
    · simp [lookupD_setk_ne _ _ _ _ _ hc, frameOf]

/-- C6 witness: camera `c1`'s snapshot at time 10 with a missing frame
still flips the zone occupancy and presence, publishing all four
messages, while deleting nothing from the plasma store. -/
theorem frame_unavailable_skips_only_frame_path_witness :
    frameOf (runStep envT cfgC1 initState inpN).state.camera_data "c1"
        = frameOf initState.camera_data "c1"
      ∧ (runStep envT cfgC1 initState inpN).deletes = [] :=
  ⟨(frame_unavailable_skips_only_frame_path envT cfgC1 initState inpN
      rfl).1 "c1",
   (frame_unavailable_skips_only_frame_path envT cfgC1 initState inpN
      rfl).2.2.1⟩

theorem objIdOf_setk_upd (m : List (String × CameraData)) (k c : String)
    (bo : List (String × BestRecord)) (os : List (String × String))
    (tro : List TrackedObject) (cfm : FrameBuf) (cft : ℚ) :
    objIdOf (setk m k
      { best_objects := bo, object_status := os, tracked_objects := tro,
        current_frame := cfm, current_frame_time := cft,
        object_id := (lookupD m k CameraData.init).object_id }) c
      = objIdOf m c := by
  rw [objIdOf_setk]
  by_cases hc : c = k
  · rw [if_pos hc, hc]
    rfl
  · rw [if_neg hc]

theorem runStep_objId (env : Env) (cfg : SysConfig) (s : SysState)
    (inp : StepInput) (c : String) :
    objIdOf (runStep env cfg s inp).state.camera_data c
      = if inp.frame.isSome = true
            ∧ c = stepCam env cfg inp.camera inp.tracked_objects
        then some (stepCam env cfg inp.camera inp.tracked_objects,
          inp.frame_time)
        else objIdOf s.camera_data c := by
  rcases hf : inp.frame with _ | f
  · simp only [runStep, hf, stepCam, Option.isSome_none, false_and, if_false]
    rw [objIdOf_setk_upd, objIdOf_setk_upd, objIdOf_setk_upd]
    simp
  · simp only [runStep, hf, stepCam, Option.isSome_some, true_and]
    rw [objIdOf_setk_upd, objIdOf_setk_upd, objIdOf_setk]
    by_cases hc2 : c = (zoneScan env cfg inp.camera inp.tracked_objects).2
    · rw [if_pos hc2]
      simp [hc2]
    · rw [if_neg hc2, objIdOf_setk_upd]
      simp [hc2]

theorem runStep_deletes (env : Env) (cfg : SysConfig) (s : SysState)
    (inp : StepInput) :
    (runStep env cfg s inp).deletes
      = if inp.frame.isSome = true
        then (objIdOf s.camera_data
          (stepCam env cfg inp.camera inp.tracked_objects)).toList
        else [] := by
  rcases hf : inp.frame with _ | f
  · simp [runStep, hf]
  · simp only [runStep, hf, stepCam, Option.isSome_some, if_pos]
    by_cases hc : (zoneScan env cfg inp.camera inp.tracked_objects).2
        = inp.camera
    · rw [hc, lookupD_setk_self]
      cases ho : (lookupD s.camera_data inp.camera
          CameraData.init).object_id <;> simp [ho, objIdOf, hc]
    · rw [lookupD_setk_ne _ _ _ _ _ hc]
      cases ho : (lookupD s.camera_data
          (zoneScan env cfg inp.camera inp.tracked_objects).2
          CameraData.init).object_id <;> simp [ho, objIdOf]

theorem lastFor_shift (cam : String) :
    ∀ (l : List (String × ℚ)) (acc : Option (String × ℚ)),
      List.foldl (fun a e => if e.1 = cam then some e else a) acc l
        = match List.foldl (fun a e => if e.1 = cam then some e else a)
            none l with
          | some e => some e
          | none => acc := by
  intro l
  induction l with
  | nil => intro acc; rfl
  | cons e rest ih =>
    intro acc
    simp only [List.foldl_cons]
    by_cases he : e.1 = cam
    · rw [if_pos he, if_pos he, ih (some e)]
      rcases hX : List.foldl (fun a e => if e.1 = cam then some e else a)
          none rest with _ | x <;> simp [hX]
    · rw [if_neg he, if_neg he]
      exact ih acc

theorem lastFor_append (cam : String) (a b : List (String × ℚ)) :
    lastFor cam (a ++ b)
      = match lastFor cam b with
        | some e => some e
        | none => lastFor cam a := by
  unfold lastFor
  rw [List.foldl_append]
  exact lastFor_shift cam b _

theorem runStep_objId_event (env : Env) (cfg : SysConfig) (s : SysState)
    (i : StepInput) (cam : String) :
    objIdOf (runStep env cfg s i).state.camera_data cam
      = match lastFor cam (match i.frame with
          | some _ => [(stepCam env cfg i.camera i.tracked_objects,
              i.frame_time)]
          | none => []) with
        | some e => some e
        | none => objIdOf s.camera_data cam := by
  rcases hf : i.frame with _ | f
  · rw [runStep_objId]
    simp [hf, lastFor]
  · rw [runStep_objId]
    simp only [hf, Option.isSome_some, true_and]
    by_cases hc : cam = stepCam env cfg i.camera i.tracked_objects
    · rw [if_pos hc]
      simp [lastFor, hc]
    · rw [if_neg hc]
      simp [lastFor, Ne.symm hc]

theorem runSeq_objId (env : Env) (cfg : SysConfig) :
    ∀ (l : List StepInput) (s : SysState) (cam : String),
      objIdOf (runSeq env cfg s l).1.camera_data cam
        = match lastFor cam (compositeEvents env cfg s l) with
          | some e => some e
          | none => objIdOf s.camera_data cam := by
  intro l
  induction l with
  | nil => intro s cam; rfl
  | cons i rest ih =>
    intro s cam
    unfold runSeq compositeEvents
    simp only []
    by_cases hcr : (runStep env cfg s i).crashed
    · rw [if_pos hcr]
      simp only [hcr, if_true, List.append_nil]
      exact runStep_objId_event env cfg s i cam
    · rw [if_neg hcr]
      have hev : (if (runStep env cfg s i).crashed = true
            then ([] : List (String × ℚ))
            else compositeEvents env cfg (runStep env cfg s i).state rest)
          = compositeEvents env cfg (runStep env cfg s i).state rest :=
        if_neg hcr
      rw [hev, ih, lastFor_append]
      rcases hl : lastFor cam
          (compositeEvents env cfg (runStep env cfg s i).state rest)
          with _ | e
      · simp only [hl]
        exact runStep_objId_event env cfg s i cam
      · simp only [hl]

/-- C7.  Each camera slot records at most one plasma handle (a single
optional field); starting from the initial state, after any snapshot
sequence the recorded handle of a camera slot is exactly the key of the
most recent successful composite into that slot (none if there was none);
and on each successful composite the step deletes exactly the previously
held handle of the slot and records the new key
`(camera variable, frame_time)` as the handle. -/
theorem single_live_frame_handle (env : Env) (cfg : SysConfig)
    (inputs : List StepInput) (cam : String) :
    (objIdOf (runSeq env cfg initState inputs).1.camera_data cam
       = lastFor cam (compositeEvents env cfg initState inputs)) ∧
    (∀ (s : SysState) (i : StepInput), i.frame.isSome = true →
       (runStep env cfg s i).deletes
           = (objIdOf s.camera_data
               (stepCam env cfg i.camera i.tracked_objects)).toList ∧
       objIdOf (runStep env cfg s i).state.camera_data
           (stepCam env cfg i.camera i.tracked_objects)
         = some (stepCam env cfg i.camera i.tracked_objects,
             i.frame_time)) := by
  constructor
  · rw [runSeq_objId]
    rcases hl : lastFor cam (compositeEvents env cfg initState inputs)
        with _ | e
    · simp only [hl]
      rfl
    · simp only [hl]
  · intro s i hf
    constructor
    · rw [runStep_deletes, if_pos hf]
    · rw [runStep_objId, if_pos ⟨hf, rfl⟩]

/-- C7 witness: two composited snapshots of camera `c1`; the recorded
handle is the key of the second, and the first snapshot (starting with no
held handle) deletes nothing. -/
theorem single_live_frame_handle_witness :
    objIdOf (runSeq envT cfgC1 initState [inpA, inpB]).1.camera_data "c1"
        = some ("c1", (11 : ℚ))
      ∧ (runStep envT cfgC1 initState inpA).deletes = [] := by
  constructor
  · rw [(single_live_frame_handle envT cfgC1 [inpA, inpB] "c1").1]
    decide
  · rw [((single_live_frame_handle envT cfgC1 [inpA, inpB] "c1").2
      initState inpA (by decide)).1]
    decide

theorem msgsOn_cons_ne (m : Msg) (l : List Msg) (t : List String)
    (h : m.topic ≠ t) : msgsOn (m :: l) t = msgsOn l t := by
  unfold msgsOn
  simp [List.filter_cons, h]

theorem msgsOn_cons_eq (m : Msg) (l : List Msg) (t : List String)
    (h : m.topic = t) : msgsOn (m :: l) t = m :: msgsOn l t := by
  unfold msgsOn
  simp [List.filter_cons, h]

theorem lookupD_eq_of_ne_default {α : Type} (m : List (String × α))
    (k : String) (d v : α) (h : lookupD m k d = v) (hne : v ≠ d) :
    alookup m k = some v := by
  unfold lookupD at h
  rcases ho : alookup m k with _ | w
  · rw [ho] at h
    simp at h
    exact absurd h.symm hne
  · rw [ho] at h
    simp at h
    rw [h]

theorem presLoop1_notin (env : Env) (base camStep : String)
    (counted : List String) (best : List (String × BestRecord))
    (label : String) :
    ∀ (ls : List String) (st : List (String × String)), label ∉ ls →
      lookupD (presLoop1 env base camStep counted best st ls).1 label "OFF"
          = lookupD st label "OFF"
        ∧ msgsOn (presLoop1 env base camStep counted best st ls).2.1
            [base, camStep, label] = []
        ∧ msgsOn (presLoop1 env base camStep counted best st ls).2.1
            [base, camStep, label, "snapshot"] = [] := by
  intro ls
  induction ls with
  | nil => intro st _; exact ⟨rfl, rfl, rfl⟩
  | cons name rest ih =>
    intro st hl
    have hne : name ≠ label := fun hc => hl (hc ▸ List.mem_cons_self _ _)
    have hr : label ∉ rest := fun hc => hl (List.mem_cons_of_mem _ hc)
    have ht1 : ([base, camStep, name] : List String)
        ≠ [base, camStep, label] := by simp [hne]
    have ht2 : ([base, camStep, name] : List String)
        ≠ [base, camStep, label, "snapshot"] := by simp
    have ht3 : ([base, camStep, name, "snapshot"] : List String)
        ≠ [base, camStep, label] := by simp
    have ht4 : ([base, camStep, name, "snapshot"] : List String)
        ≠ [base, camStep, label, "snapshot"] := by simp [hne]
    have hst1 : lookupD (ensureK st name "OFF") label "OFF"
        = lookupD st label "OFF" := lookupD_ensureK _ _ _ _
    unfold presLoop1
    by_cases he : (if counted.count name > 0 then "ON" else "OFF")
        ≠ lookupD st name "OFF"
    · rw [if_pos he]
      rcases hb : alookup best name with _ | rec
      · simp only [hb]
        refine ⟨?_, ?_, ?_⟩
        · rw [lookupD_setk_ne _ _ _ _ _ (Ne.symm hne), hst1]
        · exact msgsOn_cons_ne _ _ _ ht1
        · exact msgsOn_cons_ne _ _ _ ht2
      · simp only [hb]
        have hih := ih (setk (ensureK st name "OFF") name
          (if counted.count name > 0 then "ON" else "OFF")) hr
        have hst2 : lookupD (setk (ensureK st name "OFF") name
            (if counted.count name > 0 then "ON" else "OFF")) label "OFF"
            = lookupD st label "OFF" := by
          rw [lookupD_setk_ne _ _ _ _ _ (Ne.symm hne), hst1]
        have hsnap : ∀ m ∈ (match env.imencode (env.cvtColor rec.frame) with
            | some j =>
              [(⟨[base, camStep, name, "snapshot"], .jpg j, true⟩ : Msg)]
            | none => ([] : List Msg)),
            m.topic = [base, camStep, name, "snapshot"] := by
          rcases henc : env.imencode (env.cvtColor rec.frame) with _ | j <;>
            simp [henc]
        refine ⟨?_, ?_, ?_⟩
        · rw [hih.1, hst2]
        · rw [msgsOn_append, msgsOn_cons_ne _ _ _ ht1, hih.2.1,
            List.append_nil]
          exact msgsOn_nil _ _ (fun m hm => by rw [hsnap m hm]; exact ht3)
        · rw [msgsOn_append, msgsOn_cons_ne _ _ _ ht2, hih.2.2,
            List.append_nil]
          exact msgsOn_nil _ _ (fun m hm => by rw [hsnap m hm]; exact ht4)
    · rw [if_neg he]
      have hih := ih (ensureK st name "OFF") hr
      exact ⟨by rw [hih.1, hst1], hih.2.1, hih.2.2⟩

theorem presLoop2_notin (env : Env) (base camStep : String)
    (best : List (String × BestRecord)) (label : String) :
    ∀ (ls : List String) (st : List (String × String)), label ∉ ls →
      lookupD (presLoop2 env base camStep best st ls).1 label "OFF"
          = lookupD st label "OFF"
        ∧ msgsOn (presLoop2 env base camStep best st ls).2.1
            [base, camStep, label] = []
        ∧ msgsOn (presLoop2 env base camStep best st ls).2.1
            [base, camStep, label, "snapshot"] = [] := by
  intro ls
  induction ls with
  | nil => intro st _; exact ⟨rfl, rfl, rfl⟩
  | cons name rest ih =>
    intro st hl
    have hne : name ≠ label := fun hc => hl (hc ▸ List.mem_cons_self _ _)
    have hr : label ∉ rest := fun hc => hl (List.mem_cons_of_mem _ hc)
    have ht1 : ([base, camStep, name] : List String)
        ≠ [base, camStep, label] := by simp [hne]
    have ht2 : ([base, camStep, name] : List String)
        ≠ [base, camStep, label, "snapshot"] := by simp
    have ht3 : ([base, camStep, name, "snapshot"] : List String)
        ≠ [base, camStep, label] := by simp
    have ht4 : ([base, camStep, name, "snapshot"] : List String)
        ≠ [base, camStep, label, "snapshot"] := by simp [hne]
    have hst1 : lookupD (setk st name "OFF") label "OFF"
        = lookupD st label "OFF" := lookupD_setk_ne _ _ _ _ _ (Ne.symm hne)
    unfold presLoop2
    rcases hb : alookup best name with _ | rec
    · simp only [hb]
      exact ⟨hst1, msgsOn_cons_ne _ _ _ ht1, msgsOn_cons_ne _ _ _ ht2⟩
    · simp only [hb]
      have hih := ih (setk st name "OFF") hr
      have hsnap : ∀ m ∈ (match env.imencode (env.cvtColor rec.frame) with
          | some j =>
            [(⟨[base, camStep, name, "snapshot"], .jpg j, true⟩ : Msg)]
          | none => ([] : List Msg)),
          m.topic = [base, camStep, name, "snapshot"] := by
        rcases henc : env.imencode (env.cvtColor rec.frame) with _ | j <;>
          simp [henc]
      refine ⟨?_, ?_, ?_⟩
      · rw [hih.1, hst1]
      · rw [msgsOn_append, msgsOn_cons_ne _ _ _ ht1, hih.2.1,
          List.append_nil]
        exact msgsOn_nil _ _ (fun m hm => by rw [hsnap m hm]; exact ht3)
      · rw [msgsOn_append, msgsOn_cons_ne _ _ _ ht2, hih.2.2,
          List.append_nil]
        exact msgsOn_nil _ _ (fun m hm => by rw [hsnap m hm]; exact ht4)

theorem presLoop1_on (env : Env) (base camStep : String)
    (counted : List String) (best : List (String × BestRecord))
    (label : String) (rec : BestRecord)
    (hrec : alookup best label = some rec)
    (henc : env.imencode (env.cvtColor rec.frame) = none)
    (hcount : counted.count label > 0) :
    ∀ (ls : List String) (st : List (String × String)), ls.Nodup →
      label ∈ ls →
      lookupD st label "OFF" ≠ "ON" →
      (presLoop1 env base camStep counted best st ls).2.2 = false →
      msgsOn (presLoop1 env base camStep counted best st ls).2.1
          [base, camStep, label]
        = [⟨[base, camStep, label], .str "ON", false⟩]
      ∧ msgsOn (presLoop1 env base camStep counted best st ls).2.1
          [base, camStep, label, "snapshot"] = []
      ∧ lookupD (presLoop1 env base camStep counted best st ls).1 label "OFF"
        = "ON" := by
  intro ls
  induction ls with
  | nil =>
    intro st _ hmem
    exact absurd hmem (List.not_mem_nil _)
  | cons name rest ih =>
    intro st hnd hmem hcur hlive
    by_cases hn : name = label
    · subst hn
      have hrest : name ∉ rest := (List.nodup_cons.mp hnd).1
      have hON : (if counted.count name > 0 then "ON" else "OFF") = "ON" :=
        if_pos hcount
      have he : (if counted.count name > 0 then "ON" else "OFF")
          ≠ lookupD st name "OFF" := by
        rw [hON]
        exact fun hc => hcur hc.symm
      unfold presLoop1 at hlive ⊢
      rw [if_pos he] at hlive ⊢
      simp only [hrec] at hlive ⊢
      simp only [henc] at hlive ⊢
      have hnotin := presLoop1_notin env base camStep counted best name rest
        (setk (ensureK st name "OFF") name
          (if counted.count name > 0 then "ON" else "OFF")) hrest
      refine ⟨?_, ?_, ?_⟩
      · rw [msgsOn_append, msgsOn_cons_eq _ _ _ rfl, hnotin.2.1, hON]
        simp [msgsOn]
      · rw [msgsOn_append, msgsOn_cons_ne _ _ _ (by simp), hnotin.2.2]
        simp [msgsOn]
      · rw [hnotin.1, lookupD_setk_self, hON]
    · have hmem' : label ∈ rest := by
        rcases List.mem_cons.mp hmem with h1 | h1
        · exact absurd h1.symm hn
        · exact h1
      have hnd' := (List.nodup_cons.mp hnd).2
      have ht1 : ([base, camStep, name] : List String)
          ≠ [base, camStep, label] := by simp [hn]
      have ht2 : ([base, camStep, name] : List String)
          ≠ [base, camStep, label, "snapshot"] := by simp
      have ht3 : ([base, camStep, name, "snapshot"] : List String)
          ≠ [base, camStep, label] := by simp
      have ht4 : ([base, camStep, name, "snapshot"] : List String)
          ≠ [base, camStep, label, "snapshot"] := by simp [hn]
      unfold presLoop1 at hlive ⊢
      by_cases he : (if counted.count name > 0 then "ON" else "OFF")
          ≠ lookupD st name "OFF"
      · rw [if_pos he] at hlive ⊢
        rcases hb : alookup best name with _ | rec2
        · simp only [hb] at hlive
          simp at hlive
        · simp only [hb] at hlive ⊢
          have hcur2 : lookupD (setk (ensureK st name "OFF") name
              (if counted.count name > 0 then "ON" else "OFF")) label "OFF"
              ≠ "ON" := by
            rw [lookupD_setk_ne _ _ _ _ _ (Ne.symm hn), lookupD_ensureK]
            exact hcur
          have hih := ih _ hnd' hmem' hcur2 hlive
          have hsnap : ∀ m ∈ (match env.imencode (env.cvtColor rec2.frame) with
              | some j =>
                [(⟨[base, camStep, name, "snapshot"], .jpg j, true⟩ : Msg)]
              | none => ([] : List Msg)),
              m.topic = [base, camStep, name, "snapshot"] := by
            rcases henc2 : env.imencode (env.cvtColor rec2.frame) with _ | j <;>
              simp [henc2]
          have hs3 := msgsOn_nil
            (match env.imencode (env.cvtColor rec2.frame) with
              | some j =>
                [(⟨[base, camStep, name, "snapshot"], .jpg j, true⟩ : Msg)]
              | none => ([] : List Msg))
            [base, camStep, label]
            (fun m hm => by rw [hsnap m hm]; exact ht3)
          have hs4 := msgsOn_nil
            (match env.imencode (env.cvtColor rec2.frame) with
              | some j =>
                [(⟨[base, camStep, name, "snapshot"], .jpg j, true⟩ : Msg)]
              | none => ([] : List Msg))
            [base, camStep, label, "snapshot"]
            (fun m hm => by rw [hsnap m hm]; exact ht4)
          refine ⟨?_, ?_, ?_⟩
          · rw [msgsOn_append, msgsOn_cons_ne _ _ _ ht1, hs3,
              List.nil_append]
            exact hih.1
          · rw [msgsOn_append, msgsOn_cons_ne _ _ _ ht2, hs4,
              List.nil_append]
            exact hih.2.1
          · exact hih.2.2
      · rw [if_neg he] at hlive ⊢
        have hcur1 : lookupD (ensureK st name "OFF") label "OFF" ≠ "ON" := by
          rw [lookupD_ensureK]
          exact hcur
        exact ih _ hnd' hmem' hcur1 hlive

theorem presLoop2_on (env : Env) (base camStep : String)
    (best : List (String × BestRecord)) (label : String) (rec : BestRecord)
    (hrec : alookup best label = some rec)
    (henc : env.imencode (env.cvtColor rec.frame) = none) :
    ∀ (ls : List String) (st : List (String × String)), ls.Nodup →
      label ∈ ls →
      (presLoop2 env base camStep best st ls).2.2 = false →
      msgsOn (presLoop2 env base camStep best st ls).2.1
          [base, camStep, label]
        = [⟨[base, camStep, label], .str "OFF", false⟩]
      ∧ msgsOn (presLoop2 env base camStep best st ls).2.1
          [base, camStep, label, "snapshot"] = []
      ∧ lookupD (presLoop2 env base camStep best st ls).1 label "OFF"
        = "OFF" := by
  intro ls
  induction ls with
  | nil =>
    intro st _ hmem
    exact absurd hmem (List.not_mem_nil _)
  | cons name rest ih =>
    intro st hnd hmem hlive
    by_cases hn : name = label
    · subst hn
      have hrest : name ∉ rest := (List.nodup_cons.mp hnd).1
      unfold presLoop2 at hlive ⊢
      simp only [hrec] at hlive ⊢
      simp only [henc] at hlive ⊢
      have hnotin := presLoop2_notin env base camStep best name rest
        (setk st name "OFF") hrest
      refine ⟨?_, ?_, ?_⟩
      · rw [msgsOn_append, msgsOn_cons_eq _ _ _ rfl, hnotin.2.1]
        simp [msgsOn]
      · rw [msgsOn_append, msgsOn_cons_ne _ _ _ (by simp), hnotin.2.2]
        simp [msgsOn]
      · rw [hnotin.1, lookupD_setk_self]
    · have hmem' : label ∈ rest := by
        rcases List.mem_cons.mp hmem with h1 | h1
        · exact absurd h1.symm hn
        · exact h1
      have hnd' := (List.nodup_cons.mp hnd).2
      have ht1 : ([base, camStep, name] : List String)
          ≠ [base, camStep, label] := by simp [hn]
      have ht2 : ([base, camStep, name] : List String)
          ≠ [base, camStep, label, "snapshot"] := by simp
      have ht3 : ([base, camStep, name, "snapshot"] : List String)
          ≠ [base, camStep, label] := by simp
      have ht4 : ([base, camStep, name, "snapshot"] : List String)
          ≠ [base, camStep, label, "snapshot"] := by simp [hn]
      unfold presLoop2 at hlive ⊢
      rcases hb : alookup best name with _ | rec2
      · simp only [hb] at hlive
        simp at hlive
      · simp only [hb] at hlive ⊢
        have hih := ih _ hnd' hmem' hlive
        have hsnap : ∀ m ∈ (match env.imencode (env.cvtColor rec2.frame) with
            | some j =>
              [(⟨[base, camStep, name, "snapshot"], .jpg j, true⟩ : Msg)]
            | none => ([] : List Msg)),
            m.topic = [base, camStep, name, "snapshot"] := by
          rcases henc2 : env.imencode (env.cvtColor rec2.frame) with _ | j <;>
            simp [henc2]
        have hs3 := msgsOn_nil
          (match env.imencode (env.cvtColor rec2.frame) with
            | some j =>
              [(⟨[base, camStep, name, "snapshot"], .jpg j, true⟩ : Msg)]
            | none => ([] : List Msg))
          [base, camStep, label]
          (fun m hm => by rw [hsnap m hm]; exact ht3)
        have hs4 := msgsOn_nil
          (match env.imencode (env.cvtColor rec2.frame) with
            | some j =>
              [(⟨[base, camStep, name, "snapshot"], .jpg j, true⟩ : Msg)]
            | none => ([] : List Msg))
          [base, camStep, label, "snapshot"]
          (fun m hm => by rw [hsnap m hm]; exact ht4)
        refine ⟨?_, ?_, ?_⟩
        · rw [msgsOn_append, msgsOn_cons_ne _ _ _ ht1, hs3, List.nil_append]
          exact hih.1
        · rw [msgsOn_append, msgsOn_cons_ne _ _ _ ht2, hs4, List.nil_append]
          exact hih.2.1
        · exact hih.2.2

theorem presLoop1_keys (env : Env) (base camStep : String)
    (counted : List String) (best : List (String × BestRecord)) :
    ∀ (ls : List String) (st : List (String × String)),
      ((st.map Prod.fst).Nodup) →
      (((presLoop1 env base camStep counted best st ls).1.map
        Prod.fst)).Nodup := by
  intro ls
  induction ls with
  | nil => intro st h; exact h
  | cons name rest ih =>
    intro st h
    unfold presLoop1
    by_cases he : (if counted.count name > 0 then "ON" else "OFF")
        ≠ lookupD st name "OFF"
    · rw [if_pos he]
      have h2 : (((setk (ensureK st name "OFF") name
          (if counted.count name > 0 then "ON" else "OFF")).map
          Prod.fst)).Nodup :=
        setk_keys_nodup _ _ _ (ensureK_keys_nodup _ _ _ h)
      rcases hb : alookup best name with _ | rec
      · simp only [hb]
        exact h2
      · simp only [hb]
        exact ih _ h2
    · rw [if_neg he]
      exact ih _ (ensureK_keys_nodup _ _ _ h)

theorem count_pos_of_mem (l : List String) (x : String) (h : x ∈ l) :
    l.count x > 0 := by
  induction l with
  | nil => simp at h
  | cons hd t ih =>
    rcases List.mem_cons.mp h with rfl | h1
    · simp [List.count_cons]
    · by_cases he : hd = x
      · subst he
        simp [List.count_cons]
      · rw [List.count_cons]
        have := ih h1
        omega

/-- C9.  For a presence transition (either direction) of a label whose
best-sighting frame fails to JPEG-encode (`ret` false), in a cycle where
the reporting loop does not raise: the retained snapshot publish is
silently skipped, while the ON/OFF state message is still published (not
retained) and the stored per-camera presence status is still updated to
the new value. -/
theorem encode_failure_skips_snapshot_only (env : Env) (base camStep : String)
    (objs : List TrackedObject) (status : List (String × String))
    (best : List (String × BestRecord)) (label : String) (rec : BestRecord)
    (hkeys : (status.map Prod.fst).Nodup)
    (hrec : alookup best label = some rec)
    (henc : env.imencode (env.cvtColor rec.frame) = none)
    (hlive : (presenceSection env base camStep objs status best).2.2
      = false) :
    (label ∈ (objs.filter (fun o => o.history.length > 1)).map
        (fun o => o.label) →
      lookupD status label "OFF" ≠ "ON" →
      msgsOn (presenceSection env base camStep objs status best).2.1
          [base, camStep, label]
        = [⟨[base, camStep, label], .str "ON", false⟩]
      ∧ msgsOn (presenceSection env base camStep objs status best).2.1
          [base, camStep, label, "snapshot"] = []
      ∧ lookupD (presenceSection env base camStep objs status best).1
          label "OFF" = "ON") ∧
    (label ∉ (objs.filter (fun o => o.history.length > 1)).map
        (fun o => o.label) →
      lookupD status label "OFF" = "ON" →
      msgsOn (presenceSection env base camStep objs status best).2.1
          [base, camStep, label]
        = [⟨[base, camStep, label], .str "OFF", false⟩]
      ∧ msgsOn (presenceSection env base camStep objs status best).2.1
          [base, camStep, label, "snapshot"] = []
      ∧ lookupD (presenceSection env base camStep objs status best).1
          label "OFF" = "OFF") := by
  have hsplit : (presLoop1 env base camStep
      ((objs.filter (fun o => o.history.length > 1)).map (fun o => o.label))
      best status
      (dedup ((objs.filter (fun o => o.history.length > 1)).map
        (fun o => o.label)))).2.2 = false := by
    by_cases hc : (presLoop1 env base camStep
        ((objs.filter (fun o => o.history.length > 1)).map (fun o => o.label))
        best status
        (dedup ((objs.filter (fun o => o.history.length > 1)).map
          (fun o => o.label)))).2.2
    · unfold presenceSection at hlive
      rw [if_pos hc] at hlive
      rw [hlive] at hc
      exact absurd hc (by simp)
    · simpa using hc
  have hneg : ¬((presLoop1 env base camStep
      ((objs.filter (fun o => o.history.length > 1)).map (fun o => o.label))
      best status
      (dedup ((objs.filter (fun o => o.history.length > 1)).map
        (fun o => o.label)))).2.2 = true) := by
    rw [hsplit]
    simp
  unfold presenceSection at hlive ⊢
  rw [if_neg hneg] at hlive ⊢
  constructor
  · intro hpresent hcur
    have hmemlab : label ∈ dedup ((objs.filter
        (fun o => o.history.length > 1)).map (fun o => o.label)) :=
      (mem_dedup _ _).mpr hpresent
    have hcount : ((objs.filter (fun o => o.history.length > 1)).map
        (fun o => o.label)).count label > 0 :=
      count_pos_of_mem _ _ hpresent
    have h1 := presLoop1_on env base camStep _ best label rec hrec henc
      hcount _ status (nodup_dedup _) hmemlab hcur hsplit
    have hnotexp : label ∉ ((presLoop1 env base camStep
        ((objs.filter (fun o => o.history.length > 1)).map
          (fun o => o.label)) best status
        (dedup ((objs.filter (fun o => o.history.length > 1)).map
          (fun o => o.label)))).1.filter
        (fun p => p.2 = "ON" ∧ p.1 ∉ dedup ((objs.filter
          (fun o => o.history.length > 1)).map (fun o => o.label)))).map
        Prod.fst := by
      intro hc
      rcases List.mem_map.mp hc with ⟨p, hp, hpe⟩
      have hfil := (List.mem_filter.mp hp).2
      simp only [decide_eq_true_eq] at hfil
      exact hfil.2 (hpe ▸ hmemlab)
    have h2 := presLoop2_notin env base camStep best label _
      (presLoop1 env base camStep
        ((objs.filter (fun o => o.history.length > 1)).map
          (fun o => o.label)) best status
        (dedup ((objs.filter (fun o => o.history.length > 1)).map
          (fun o => o.label)))).1
      hnotexp
    refine ⟨?_, ?_, ?_⟩
    · rw [msgsOn_append, h1.1, h2.2.1, List.append_nil]
    · rw [msgsOn_append, h1.2.1, h2.2.2, List.append_nil]
    · rw [h2.1]
      exact h1.2.2
  · intro hnot hcurON
    have hnotlab : label ∉ dedup ((objs.filter
        (fun o => o.history.length > 1)).map (fun o => o.label)) :=
      fun hc => hnot ((mem_dedup _ _).mp hc)
    have h1 := presLoop1_notin env base camStep
      ((objs.filter (fun o => o.history.length > 1)).map
        (fun o => o.label)) best label
      (dedup ((objs.filter (fun o => o.history.length > 1)).map
        (fun o => o.label))) status hnotlab
    have hstatON : lookupD (presLoop1 env base camStep
        ((objs.filter (fun o => o.history.length > 1)).map
          (fun o => o.label)) best status
        (dedup ((objs.filter (fun o => o.history.length > 1)).map
          (fun o => o.label)))).1 label "OFF" = "ON" := by
      rw [h1.1]
      exact hcurON
    have halk := lookupD_eq_of_ne_default _ _ _ _ hstatON (by simp)
    have hmemr1 := alookup_mem _ _ _ halk
    have hmemexp : label ∈ ((presLoop1 env base camStep
        ((objs.filter (fun o => o.history.length > 1)).map
          (fun o => o.label)) best status
        (dedup ((objs.filter (fun o => o.history.length > 1)).map
          (fun o => o.label)))).1.filter
        (fun p => p.2 = "ON" ∧ p.1 ∉ dedup ((objs.filter
          (fun o => o.history.length > 1)).map (fun o => o.label)))).map
        Prod.fst := by
      apply List.mem_map.mpr
      refine ⟨(label, "ON"), ?_, rfl⟩
      apply List.mem_filter.mpr
      refine ⟨hmemr1, ?_⟩
      simp [hnotlab]
    have hexpnodup : (((presLoop1 env base camStep
        ((objs.filter (fun o => o.history.length > 1)).map
          (fun o => o.label)) best status
        (dedup ((objs.filter (fun o => o.history.length > 1)).map
          (fun o => o.label)))).1.filter
        (fun p => p.2 = "ON" ∧ p.1 ∉ dedup ((objs.filter
          (fun o => o.history.length > 1)).map (fun o => o.label)))).map
        Prod.fst).Nodup := by
      have hk := presLoop1_keys env base camStep
        ((objs.filter (fun o => o.history.length > 1)).map
        (fun o => o.label)) best
        (dedup ((objs.filter (fun o => o.history.length > 1)).map
        (fun o => o.label))) status hkeys
      exact List.Nodup.sublist
        (List.Sublist.map _ (List.filter_sublist _)) hk
    have h2 := presLoop2_on env base camStep best label rec hrec henc
      _ (presLoop1 env base camStep
        ((objs.filter (fun o => o.history.length > 1)).map
          (fun o => o.label)) best status
        (dedup ((objs.filter (fun o => o.history.length > 1)).map
          (fun o => o.label)))).1
      hexpnodup hmemexp hlive
    refine ⟨?_, ?_, ?_⟩
    · rw [msgsOn_append, h1.2.1, h2.1, List.nil_append]
    · rw [msgsOn_append, h1.2.2, h2.2.1, List.nil_append]
    · exact h2.2.2

/-- C9 witness: a person presence ON edge whose best frame fails to
encode publishes the state message, no snapshot, and stores the ON
status. -/
theorem encode_failure_skips_snapshot_only_witness :
    msgsOn (presenceSection envN "frigate" "c1" [objP] [] bestW).2.1
        ["frigate", "c1", "person"]
      = [⟨["frigate", "c1", "person"], .str "ON", false⟩]
    ∧ msgsOn (presenceSection envN "frigate" "c1" [objP] [] bestW).2.1
        ["frigate", "c1", "person", "snapshot"] = []
    ∧ lookupD (presenceSection envN "frigate" "c1" [objP] [] bestW).1
        "person" "OFF" = "ON" :=
  (encode_failure_skips_snapshot_only envN "frigate" "c1" [objP] [] bestW
    "person" recW (by decide) (by decide) (by decide) (by decide)).1
    (by decide) (by decide)
